import Mathlib

/-!
Shallow embedding of the `ulid` Go package (rotationalio/ulid).

Strings and byte buffers are modelled as `List Nat` whose entries are byte
values (`< 256`); machine words are `Nat` with explicit `% 2 ^ w` at every
operation where the Go code can wrap.  Fixed-size Go arrays (`ULID [16]byte`,
the 26-byte text buffer, the 10 entropy bytes) are modelled by
pattern-matching on lists of the corresponding length, which is the direct
counterpart of Go's compile-time-checked indexing.
-/

/-- The error values of `errors.go`, one constructor per `errors.New` package
variable. -/
inductive Err where
  | DataSize
  | InvalidCharacters
  | BufferSize
  | BigTime
  | Overflow
  | MonotonicOverflow
  | ScanValue
  | UnknownType
deriving DecidableEq, Repr

/-- `Encoding = "0123456789ABCDEFGHJKMNPQRSTVWXYZ"` as its list of byte
values. -/
def Encoding : List Nat :=
  [48, 49, 50, 51, 52, 53, 54, 55, 56, 57,
   65, 66, 67, 68, 69, 70, 71, 72,
   74, 75,
   77, 78,
   80, 81, 82, 83, 84,
   86, 87, 88, 89, 90]

/-- `Encoding[i]`: indexing the alphabet string. -/
def enc (i : Nat) : Nat := Encoding.getD i 0

/-- The 256-entry byte-to-index table `dec` of the source, `0xFF` being the
sentinel for invalid bytes.  Transcribed row by row. -/
def decTable : List Nat :=
  [0xFF, 0xFF, 0xFF, 0xFF, 0xFF, 0xFF, 0xFF, 0xFF, 0xFF, 0xFF,
   0xFF, 0xFF, 0xFF, 0xFF, 0xFF, 0xFF, 0xFF, 0xFF, 0xFF, 0xFF,
   0xFF, 0xFF, 0xFF, 0xFF, 0xFF, 0xFF, 0xFF, 0xFF, 0xFF, 0xFF,
   0xFF, 0xFF, 0xFF, 0xFF, 0xFF, 0xFF, 0xFF, 0xFF, 0xFF, 0xFF,
   0xFF, 0xFF, 0xFF, 0xFF, 0xFF, 0xFF, 0xFF, 0xFF, 0x00, 0x01,
   0x02, 0x03, 0x04, 0x05, 0x06, 0x07, 0x08, 0x09, 0xFF, 0xFF,
   0xFF, 0xFF, 0xFF, 0xFF, 0xFF, 0x0A, 0x0B, 0x0C, 0x0D, 0x0E,
   0x0F, 0x10, 0x11, 0xFF, 0x12, 0x13, 0xFF, 0x14, 0x15, 0xFF,
   0x16, 0x17, 0x18, 0x19, 0x1A, 0xFF, 0x1B, 0x1C, 0x1D, 0x1E,
   0x1F, 0xFF, 0xFF, 0xFF, 0xFF, 0xFF, 0xFF, 0x0A, 0x0B, 0x0C,
   0x0D, 0x0E, 0x0F, 0x10, 0x11, 0xFF, 0x12, 0x13, 0xFF, 0x14,
   0x15, 0xFF, 0x16, 0x17, 0x18, 0x19, 0x1A, 0xFF, 0x1B, 0x1C,
   0x1D, 0x1E, 0x1F, 0xFF, 0xFF, 0xFF, 0xFF, 0xFF, 0xFF, 0xFF,
   0xFF, 0xFF, 0xFF, 0xFF, 0xFF, 0xFF, 0xFF, 0xFF, 0xFF, 0xFF,
   0xFF, 0xFF, 0xFF, 0xFF, 0xFF, 0xFF, 0xFF, 0xFF, 0xFF, 0xFF,
   0xFF, 0xFF, 0xFF, 0xFF, 0xFF, 0xFF, 0xFF, 0xFF, 0xFF, 0xFF,
   0xFF, 0xFF, 0xFF, 0xFF, 0xFF, 0xFF, 0xFF, 0xFF, 0xFF, 0xFF,
   0xFF, 0xFF, 0xFF, 0xFF, 0xFF, 0xFF, 0xFF, 0xFF, 0xFF, 0xFF,
   0xFF, 0xFF, 0xFF, 0xFF, 0xFF, 0xFF, 0xFF, 0xFF, 0xFF, 0xFF,
   0xFF, 0xFF, 0xFF, 0xFF, 0xFF, 0xFF, 0xFF, 0xFF, 0xFF, 0xFF,
   0xFF, 0xFF, 0xFF, 0xFF, 0xFF, 0xFF, 0xFF, 0xFF, 0xFF, 0xFF,
   0xFF, 0xFF, 0xFF, 0xFF, 0xFF, 0xFF, 0xFF, 0xFF, 0xFF, 0xFF,
   0xFF, 0xFF, 0xFF, 0xFF, 0xFF, 0xFF, 0xFF, 0xFF, 0xFF, 0xFF,
   0xFF, 0xFF, 0xFF, 0xFF, 0xFF, 0xFF, 0xFF, 0xFF, 0xFF, 0xFF,
   0xFF, 0xFF, 0xFF, 0xFF, 0xFF, 0xFF, 0xFF, 0xFF, 0xFF, 0xFF,
   0xFF, 0xFF, 0xFF, 0xFF, 0xFF, 0xFF]

/-- `dec[c]`: table lookup.  A Go index out of the byte range cannot occur
(bytes are `< 256`); the `getD` default mirrors the sentinel. -/
def dec (c : Nat) : Nat := decTable.getD c 0xFF

/-- The zero-value `ULID` (`ulid.Zero`; the source name collides with Mathlib's
`Zero` class). -/
def ZeroULID : List Nat := [0, 0, 0, 0, 0, 0, 0, 0, 0, 0, 0, 0, 0, 0, 0, 0]

/-- The 16 output bytes of `parse`, as a function of the 26 already
table-decoded symbol values `dec[v[i]]`.  Each Go byte expression wraps
modulo 256, hence the `% 256` on every left shift that can exceed a byte. -/
def parseBytes : List Nat → List Nat
  | [x0, x1, x2, x3, x4, x5, x6, x7, x8, x9,
     x10, x11, x12, x13, x14, x15, x16, x17, x18, x19,
     x20, x21, x22, x23, x24, x25] =>
    [((x0 <<< 5) % 256) ||| x1,
     ((x2 <<< 3) % 256) ||| (x3 >>> 2),
     ((x3 <<< 6) % 256) ||| ((x4 <<< 1) % 256) ||| (x5 >>> 4),
     ((x5 <<< 4) % 256) ||| (x6 >>> 1),
     ((x6 <<< 7) % 256) ||| ((x7 <<< 2) % 256) ||| (x8 >>> 3),
     ((x8 <<< 5) % 256) ||| x9,
     ((x10 <<< 3) % 256) ||| (x11 >>> 2),
     ((x11 <<< 6) % 256) ||| ((x12 <<< 1) % 256) ||| (x13 >>> 4),
     ((x13 <<< 4) % 256) ||| (x14 >>> 1),
     ((x14 <<< 7) % 256) ||| ((x15 <<< 2) % 256) ||| (x16 >>> 3),
     ((x16 <<< 5) % 256) ||| x17,
     ((x18 <<< 3) % 256) ||| (x19 >>> 2),
     ((x19 <<< 6) % 256) ||| ((x20 <<< 1) % 256) ||| (x21 >>> 4),
     ((x21 <<< 4) % 256) ||| (x22 >>> 1),
     ((x22 <<< 7) % 256) ||| ((x23 <<< 2) % 256) ||| (x24 >>> 3),
     ((x24 <<< 5) % 256) ||| x25]
  | _ => []

/-- `parse(v, strict, id)` of the source.  The `len(v) != EncodedSize` check
is realised by the 26-element pattern; the strict-mode membership check, the
first-character overflow check (`v[0] > '7'`, a raw byte comparison) and the
unrolled decoding loop follow the source line by line. -/
def parse (v : List Nat) (strict : Bool) : Except Err (List Nat) :=
  if v.length ≠ 26 then .error .DataSize
  else match v with
  | [c0, c1, c2, c3, c4, c5, c6, c7, c8, c9,
     c10, c11, c12, c13, c14, c15, c16, c17, c18, c19,
     c20, c21, c22, c23, c24, c25] =>
    if strict ∧
        (dec c0 = 0xFF ∨ dec c1 = 0xFF ∨ dec c2 = 0xFF ∨ dec c3 = 0xFF ∨
         dec c4 = 0xFF ∨ dec c5 = 0xFF ∨ dec c6 = 0xFF ∨ dec c7 = 0xFF ∨
         dec c8 = 0xFF ∨ dec c9 = 0xFF ∨ dec c10 = 0xFF ∨ dec c11 = 0xFF ∨
         dec c12 = 0xFF ∨ dec c13 = 0xFF ∨ dec c14 = 0xFF ∨ dec c15 = 0xFF ∨
         dec c16 = 0xFF ∨ dec c17 = 0xFF ∨ dec c18 = 0xFF ∨ dec c19 = 0xFF ∨
         dec c20 = 0xFF ∨ dec c21 = 0xFF ∨ dec c22 = 0xFF ∨ dec c23 = 0xFF ∨
         dec c24 = 0xFF ∨ dec c25 = 0xFF) then
      .error .InvalidCharacters
    else if 55 < c0 then
      .error .Overflow
    else
      .ok (parseBytes
        [dec c0, dec c1, dec c2, dec c3, dec c4, dec c5, dec c6, dec c7,
         dec c8, dec c9, dec c10, dec c11, dec c12, dec c13, dec c14, dec c15,
         dec c16, dec c17, dec c18, dec c19, dec c20, dec c21, dec c22,
         dec c23, dec c24, dec c25])
  | _ => .error .DataSize

/-- The string branch of `Parse`: the empty string short-circuits to the zero
ULID with a nil error, everything else goes through non-strict `parse`. -/
def Parse (s : List Nat) : Except Err (List Nat) :=
  if s = [] then .ok ZeroULID else parse s false

/-- The string branch of `ParseStrict`: strict `parse`, no empty-string
special case. -/
def ParseStrict (s : List Nat) : Except Err (List Nat) := parse s true

/-- The 26 alphabet indices computed by `ULID.MarshalTextTo`, before the
`Encoding[...]` lookup.  Every expression is below 32, so no Go byte
expression here can wrap. -/
def marshalVals : List Nat → List Nat
  | [b0, b1, b2, b3, b4, b5, b6, b7, b8, b9, b10, b11, b12, b13, b14, b15] =>
    [(b0 &&& 224) >>> 5,
     b0 &&& 31,
     (b1 &&& 248) >>> 3,
     ((b1 &&& 7) <<< 2) ||| ((b2 &&& 192) >>> 6),
     (b2 &&& 62) >>> 1,
     ((b2 &&& 1) <<< 4) ||| ((b3 &&& 240) >>> 4),
     ((b3 &&& 15) <<< 1) ||| ((b4 &&& 128) >>> 7),
     (b4 &&& 124) >>> 2,
     ((b4 &&& 3) <<< 3) ||| ((b5 &&& 224) >>> 5),
     b5 &&& 31,
     (b6 &&& 248) >>> 3,
     ((b6 &&& 7) <<< 2) ||| ((b7 &&& 192) >>> 6),
     (b7 &&& 62) >>> 1,
     ((b7 &&& 1) <<< 4) ||| ((b8 &&& 240) >>> 4),
     ((b8 &&& 15) <<< 1) ||| ((b9 &&& 128) >>> 7),
     (b9 &&& 124) >>> 2,
     ((b9 &&& 3) <<< 3) ||| ((b10 &&& 224) >>> 5),
     b10 &&& 31,
     (b11 &&& 248) >>> 3,
     ((b11 &&& 7) <<< 2) ||| ((b12 &&& 192) >>> 6),
     (b12 &&& 62) >>> 1,
     ((b12 &&& 1) <<< 4) ||| ((b13 &&& 240) >>> 4),
     ((b13 &&& 15) <<< 1) ||| ((b14 &&& 128) >>> 7),
     (b14 &&& 124) >>> 2,
     ((b14 &&& 3) <<< 3) ||| ((b15 &&& 224) >>> 5),
     b15 &&& 31]
  | _ => []

/-- `ULID.MarshalTextTo` writing into a fresh 26-byte buffer, as used by
`ULID.String`: each output byte is `Encoding[expr]`. -/
def MarshalText (id : List Nat) : List Nat := (marshalVals id).map enc

/-- Go's `strings.ToUpper` on a single ASCII byte, the uppercase form used to
state the text round-trip. -/
def toUp (c : Nat) : Nat := if 97 ≤ c ∧ c ≤ 122 then c - 32 else c

/-- `bytes.Compare`, the unsigned lexicographic byte comparison backing
`ULID.Compare` (modelled from the Go standard library contract). -/
def Compare : List Nat → List Nat → Int
  | [], [] => 0
  | [], _ :: _ => -1
  | _ :: _, [] => 1
  | a :: as, b :: bs => if a < b then -1 else if b < a then 1 else Compare as bs

/-- `ULID.Time`: the 48-bit big-endian timestamp of the first 6 bytes. -/
def ULIDTime : List Nat → Nat
  | [b0, b1, b2, b3, b4, b5, _, _, _, _, _, _, _, _, _, _] =>
    b5 ||| (b4 <<< 8) ||| (b3 <<< 16) ||| (b2 <<< 24) ||| (b1 <<< 32) |||
      (b0 <<< 40)
  | _ => 0

/-- `maxTime = ULID{0xFF, 0xFF, 0xFF, 0xFF, 0xFF, 0xFF}.Time()`. -/
def maxTime : Nat :=
  ULIDTime [0xFF, 0xFF, 0xFF, 0xFF, 0xFF, 0xFF, 0, 0, 0, 0, 0, 0, 0, 0, 0, 0]

/-- The six bytes written by `ULID.SetTime`; Go's `byte(x)` conversion
truncates modulo 256. -/
def tsBytes (ms : Nat) : List Nat :=
  [(ms >>> 40) % 256, (ms >>> 32) % 256, (ms >>> 24) % 256, (ms >>> 16) % 256,
   (ms >>> 8) % 256, ms % 256]

/-- `New(ms, entropy)` with the bytes delivered by the entropy source given
as the list `e`: `SetTime` writes the first six bytes or fails with
`ErrBigTime`, the entropy read fills the last ten. -/
def New (ms : Nat) (e : List Nat) : Except Err (List Nat) :=
  if maxTime < ms then .error .BigTime else .ok (tsBytes ms ++ e)

/-- Digit value of a big-endian base-256 byte string. -/
def byteVal (l : List Nat) : Nat := l.foldl (fun a d => a * 256 + d) 0

/-- Digit value of a big-endian base-32 symbol string. -/
def textVal (l : List Nat) : Nat := l.foldl (fun a d => a * 32 + d) 0

/-!
Bit-slice arithmetic: every masked/shifted byte expression of the codec is
rewritten to a `div`/`mod` form, single Go operator at a time (checked by
exhaustive evaluation over the byte range), and disjoint `|||`s become `+`.
-/

set_option maxRecDepth 10000

theorem mA_fin : ∀ a : Fin 256, (a.val &&& 224) >>> 5 = a.val / 32 := by decide

theorem mB_fin : ∀ a : Fin 256, a.val &&& 31 = a.val % 32 := by decide

theorem mC_fin : ∀ a : Fin 256, (a.val &&& 248) >>> 3 = a.val / 8 := by decide

theorem mD1_fin : ∀ a : Fin 256, (a.val &&& 7) <<< 2 = a.val % 8 * 4 := by decide

theorem mD2_fin : ∀ a : Fin 256, (a.val &&& 192) >>> 6 = a.val / 64 := by decide

theorem mE_fin : ∀ a : Fin 256, (a.val &&& 62) >>> 1 = a.val / 2 % 32 := by decide

theorem mF1_fin : ∀ a : Fin 256, (a.val &&& 1) <<< 4 = a.val % 2 * 16 := by decide

theorem mF2_fin : ∀ a : Fin 256, (a.val &&& 240) >>> 4 = a.val / 16 := by decide

theorem mG1_fin : ∀ a : Fin 256, (a.val &&& 15) <<< 1 = a.val % 16 * 2 := by decide

theorem mG2_fin : ∀ a : Fin 256, (a.val &&& 128) >>> 7 = a.val / 128 := by decide

theorem mH_fin : ∀ a : Fin 256, (a.val &&& 124) >>> 2 = a.val / 4 % 32 := by decide

theorem mI1_fin : ∀ a : Fin 256, (a.val &&& 3) <<< 3 = a.val % 4 * 8 := by decide

theorem pA1_fin : ∀ a : Fin 32, (a.val <<< 5) % 256 = a.val % 8 * 32 := by decide

theorem pB1_fin : ∀ a : Fin 32, (a.val <<< 3) % 256 = a.val * 8 := by decide

theorem pC1_fin : ∀ a : Fin 32, (a.val <<< 6) % 256 = a.val % 4 * 64 := by decide

theorem pC2_fin : ∀ a : Fin 32, (a.val <<< 1) % 256 = a.val * 2 := by decide

theorem pD1_fin : ∀ a : Fin 32, (a.val <<< 4) % 256 = a.val % 16 * 16 := by decide

theorem pE1_fin : ∀ a : Fin 32, (a.val <<< 7) % 256 = a.val % 2 * 128 := by decide

theorem pE2_fin : ∀ a : Fin 32, (a.val <<< 2) % 256 = a.val * 4 := by decide

theorem orOfLt {b : Nat} (i a : Nat) (hb : b < 2 ^ i) : (2 ^ i * a) ||| b = 2 ^ i * a + b :=
  (Nat.mul_add_lt_is_or hb a).symm

theorem mD (a b : Nat) (ha : a < 256) (hb : b < 256) :
    ((a &&& 7) <<< 2) ||| ((b &&& 192) >>> 6) = a % 8 * 4 + b / 64 := by
  rw [mD1_fin ⟨a, ha⟩, mD2_fin ⟨b, hb⟩, show a % 8 * 4 = 2 ^ 2 * (a % 8) by ring,
    orOfLt 2 (a % 8) (by omega)]

theorem mF (a b : Nat) (ha : a < 256) (hb : b < 256) :
    ((a &&& 1) <<< 4) ||| ((b &&& 240) >>> 4) = a % 2 * 16 + b / 16 := by
  rw [mF1_fin ⟨a, ha⟩, mF2_fin ⟨b, hb⟩, show a % 2 * 16 = 2 ^ 4 * (a % 2) by ring,
    orOfLt 4 (a % 2) (by omega)]

theorem mG (a b : Nat) (ha : a < 256) (hb : b < 256) :
    ((a &&& 15) <<< 1) ||| ((b &&& 128) >>> 7) = a % 16 * 2 + b / 128 := by
  rw [mG1_fin ⟨a, ha⟩, mG2_fin ⟨b, hb⟩, show a % 16 * 2 = 2 ^ 1 * (a % 16) by ring,
    orOfLt 1 (a % 16) (by omega)]

theorem mI (a b : Nat) (ha : a < 256) (hb : b < 256) :
    ((a &&& 3) <<< 3) ||| ((b &&& 224) >>> 5) = a % 4 * 8 + b / 32 := by
  rw [mI1_fin ⟨a, ha⟩, mA_fin ⟨b, hb⟩, show a % 4 * 8 = 2 ^ 3 * (a % 4) by ring,
    orOfLt 3 (a % 4) (by omega)]

theorem pA (a b : Nat) (ha : a < 32) (hb : b < 32) :
    ((a <<< 5) % 256) ||| b = a % 8 * 32 + b := by
  rw [pA1_fin ⟨a, ha⟩, show a % 8 * 32 = 2 ^ 5 * (a % 8) by ring, orOfLt 5 (a % 8) (by omega)]

theorem pB (a b : Nat) (ha : a < 32) (hb : b < 32) :
    ((a <<< 3) % 256) ||| (b >>> 2) = a * 8 + b / 4 := by
  rw [pB1_fin ⟨a, ha⟩, Nat.shiftRight_eq_div_pow, show a * 8 = 2 ^ 3 * a by ring,
    show b / 2 ^ 2 = b / 4 by norm_num]
  exact orOfLt 3 a (by omega)

theorem pC (a b c : Nat) (ha : a < 32) (hb : b < 32) (hc : c < 32) :
    ((a <<< 6) % 256) ||| ((b <<< 1) % 256) ||| (c >>> 4) =
      a % 4 * 64 + b * 2 + c / 16 := by
  rw [pC1_fin ⟨a, ha⟩, pC2_fin ⟨b, hb⟩, Nat.shiftRight_eq_div_pow,
    show a % 4 * 64 = 2 ^ 6 * (a % 4) by ring, orOfLt 6 (a % 4) (by omega),
    show 2 ^ 6 * (a % 4) + b * 2 = 2 ^ 1 * (2 ^ 5 * (a % 4) + b) by ring,
    show c / 2 ^ 4 = c / 16 by norm_num, orOfLt 1 _ (by omega)]

theorem pD (a b : Nat) (ha : a < 32) (hb : b < 32) :
    ((a <<< 4) % 256) ||| (b >>> 1) = a % 16 * 16 + b / 2 := by
  rw [pD1_fin ⟨a, ha⟩, Nat.shiftRight_eq_div_pow,
    show a % 16 * 16 = 2 ^ 4 * (a % 16) by ring, show b / 2 ^ 1 = b / 2 by norm_num]
  exact orOfLt 4 (a % 16) (by omega)

theorem pE (a b c : Nat) (ha : a < 32) (hb : b < 32) (hc : c < 32) :
    ((a <<< 7) % 256) ||| ((b <<< 2) % 256) ||| (c >>> 3) =
      a % 2 * 128 + b * 4 + c / 8 := by
  rw [pE1_fin ⟨a, ha⟩, pE2_fin ⟨b, hb⟩, Nat.shiftRight_eq_div_pow,
    show a % 2 * 128 = 2 ^ 7 * (a % 2) by ring, orOfLt 7 (a % 2) (by omega),
    show 2 ^ 7 * (a % 2) + b * 4 = 2 ^ 2 * (2 ^ 5 * (a % 2) + b) by ring,
    show c / 2 ^ 3 = c / 8 by norm_num, orOfLt 2 _ (by omega)]

/-- `marshalVals` in pure `div`/`mod` arithmetic: the 26 five-bit windows of
the 16 input bytes. -/
theorem marshalVals_eq (b0 b1 b2 b3 b4 b5 b6 b7 b8 b9 b10 b11 b12 b13 b14 b15 : Nat)
    (h0 : b0 < 256) (h1 : b1 < 256) (h2 : b2 < 256) (h3 : b3 < 256)
    (h4 : b4 < 256) (h5 : b5 < 256) (h6 : b6 < 256) (h7 : b7 < 256)
    (h8 : b8 < 256) (h9 : b9 < 256) (h10 : b10 < 256) (h11 : b11 < 256)
    (h12 : b12 < 256) (h13 : b13 < 256) (h14 : b14 < 256) (h15 : b15 < 256) :
    marshalVals [b0, b1, b2, b3, b4, b5, b6, b7, b8, b9, b10, b11, b12, b13, b14, b15] =
    [b0 / 32,
     b0 % 32,
     b1 / 8,
     b1 % 8 * 4 + b2 / 64,
     b2 / 2 % 32,
     b2 % 2 * 16 + b3 / 16,
     b3 % 16 * 2 + b4 / 128,
     b4 / 4 % 32,
     b4 % 4 * 8 + b5 / 32,
     b5 % 32,
     b6 / 8,
     b6 % 8 * 4 + b7 / 64,
     b7 / 2 % 32,
     b7 % 2 * 16 + b8 / 16,
     b8 % 16 * 2 + b9 / 128,
     b9 / 4 % 32,
     b9 % 4 * 8 + b10 / 32,
     b10 % 32,
     b11 / 8,
     b11 % 8 * 4 + b12 / 64,
     b12 / 2 % 32,
     b12 % 2 * 16 + b13 / 16,
     b13 % 16 * 2 + b14 / 128,
     b14 / 4 % 32,
     b14 % 4 * 8 + b15 / 32,
     b15 % 32] := by
  simp only [marshalVals]
  rw [mA_fin ⟨b0, h0⟩,
    mB_fin ⟨b0, h0⟩,
    mC_fin ⟨b1, h1⟩,
    mD b1 b2 h1 h2,
    mE_fin ⟨b2, h2⟩,
    mF b2 b3 h2 h3,
    mG b3 b4 h3 h4,
    mH_fin ⟨b4, h4⟩,
    mI b4 b5 h4 h5,
    mB_fin ⟨b5, h5⟩,
    mC_fin ⟨b6, h6⟩,
    mD b6 b7 h6 h7,
    mE_fin ⟨b7, h7⟩,
    mF b7 b8 h7 h8,
    mG b8 b9 h8 h9,
    mH_fin ⟨b9, h9⟩,
    mI b9 b10 h9 h10,
    mB_fin ⟨b10, h10⟩,
    mC_fin ⟨b11, h11⟩,
    mD b11 b12 h11 h12,
    mE_fin ⟨b12, h12⟩,
    mF b12 b13 h12 h13,
    mG b13 b14 h13 h14,
    mH_fin ⟨b14, h14⟩,
    mI b14 b15 h14 h15,
    mB_fin ⟨b15, h15⟩]

/-- `parseBytes` in pure `div`/`mod` arithmetic: how the 16 output bytes are
assembled from the 26 symbol values. -/
theorem parseBytes_eq (x0 x1 x2 x3 x4 x5 x6 x7 x8 x9 x10 x11 x12 x13
    x14 x15 x16 x17 x18 x19 x20 x21 x22 x23 x24 x25 : Nat)
    (g0 : x0 < 32) (g1 : x1 < 32) (g2 : x2 < 32) (g3 : x3 < 32)
    (g4 : x4 < 32) (g5 : x5 < 32) (g6 : x6 < 32) (g7 : x7 < 32)
    (g8 : x8 < 32) (g9 : x9 < 32) (g10 : x10 < 32) (g11 : x11 < 32)
    (g12 : x12 < 32) (g13 : x13 < 32) (g14 : x14 < 32) (g15 : x15 < 32)
    (g16 : x16 < 32) (g17 : x17 < 32) (g18 : x18 < 32) (g19 : x19 < 32)
    (g20 : x20 < 32) (g21 : x21 < 32) (g22 : x22 < 32) (g23 : x23 < 32)
    (g24 : x24 < 32) (g25 : x25 < 32) :
    parseBytes [x0, x1, x2, x3, x4, x5, x6, x7, x8, x9, x10, x11, x12, x13, x14, x15, x16, x17, x18, x19, x20, x21, x22, x23, x24, x25] =
    [x0 % 8 * 32 + x1,
     x2 * 8 + x3 / 4,
     x3 % 4 * 64 + x4 * 2 + x5 / 16,
     x5 % 16 * 16 + x6 / 2,
     x6 % 2 * 128 + x7 * 4 + x8 / 8,
     x8 % 8 * 32 + x9,
     x10 * 8 + x11 / 4,
     x11 % 4 * 64 + x12 * 2 + x13 / 16,
     x13 % 16 * 16 + x14 / 2,
     x14 % 2 * 128 + x15 * 4 + x16 / 8,
     x16 % 8 * 32 + x17,
     x18 * 8 + x19 / 4,
     x19 % 4 * 64 + x20 * 2 + x21 / 16,
     x21 % 16 * 16 + x22 / 2,
     x22 % 2 * 128 + x23 * 4 + x24 / 8,
     x24 % 8 * 32 + x25] := by
  simp only [parseBytes]
  rw [pA x0 x1 g0 g1,
    pB x2 x3 g2 g3,
    pC x3 x4 x5 g3 g4 g5,
    pD x5 x6 g5 g6,
    pE x6 x7 x8 g6 g7 g8,
    pA x8 x9 g8 g9,
    pB x10 x11 g10 g11,
    pC x11 x12 x13 g11 g12 g13,
    pD x13 x14 g13 g14,
    pE x14 x15 x16 g14 g15 g16,
    pA x16 x17 g16 g17,
    pB x18 x19 g18 g19,
    pC x19 x20 x21 g19 g20 g21,
    pD x21 x22 g21 g22,
    pE x22 x23 x24 g22 g23 g24,
    pA x24 x25 g24 g25]

set_option maxHeartbeats 1000000

/-- Decoding inverts encoding at the level of the 16 raw bytes. -/
theorem parse_marshal_core (b0 b1 b2 b3 b4 b5 b6 b7 b8 b9 b10 b11 b12 b13 b14 b15 : Nat)
    (h0 : b0 < 256) (h1 : b1 < 256) (h2 : b2 < 256) (h3 : b3 < 256)
    (h4 : b4 < 256) (h5 : b5 < 256) (h6 : b6 < 256) (h7 : b7 < 256)
    (h8 : b8 < 256) (h9 : b9 < 256) (h10 : b10 < 256) (h11 : b11 < 256)
    (h12 : b12 < 256) (h13 : b13 < 256) (h14 : b14 < 256) (h15 : b15 < 256) :
    parseBytes (marshalVals
      [b0, b1, b2, b3, b4, b5, b6, b7, b8, b9, b10, b11, b12, b13, b14, b15]) =
      [b0, b1, b2, b3, b4, b5, b6, b7, b8, b9, b10, b11, b12, b13, b14, b15] := by
  rw [marshalVals_eq b0 b1 b2 b3 b4 b5 b6 b7 b8 b9 b10 b11 b12 b13 b14 b15
    h0 h1 h2 h3 h4 h5 h6 h7 h8 h9 h10 h11 h12 h13 h14 h15]
  rw [parseBytes_eq]
  · simp only [List.cons.injEq, and_true]
    omega
  all_goals omega

/-- Encoding inverts decoding at the level of the 26 symbol values, for a
first symbol below 8. -/
theorem marshal_parse_core (x0 x1 x2 x3 x4 x5 x6 x7 x8 x9 x10 x11 x12 x13
    x14 x15 x16 x17 x18 x19 x20 x21 x22 x23 x24 x25 : Nat)
    (g0 : x0 < 32) (g1 : x1 < 32) (g2 : x2 < 32) (g3 : x3 < 32)
    (g4 : x4 < 32) (g5 : x5 < 32) (g6 : x6 < 32) (g7 : x7 < 32)
    (g8 : x8 < 32) (g9 : x9 < 32) (g10 : x10 < 32) (g11 : x11 < 32)
    (g12 : x12 < 32) (g13 : x13 < 32) (g14 : x14 < 32) (g15 : x15 < 32)
    (g16 : x16 < 32) (g17 : x17 < 32) (g18 : x18 < 32) (g19 : x19 < 32)
    (g20 : x20 < 32) (g21 : x21 < 32) (g22 : x22 < 32) (g23 : x23 < 32)
    (g24 : x24 < 32) (g25 : x25 < 32) (gFirst : x0 < 8) :
    marshalVals (parseBytes
      [x0, x1, x2, x3, x4, x5, x6, x7, x8, x9, x10, x11, x12, x13, x14, x15,
       x16, x17, x18, x19, x20, x21, x22, x23, x24, x25]) =
      [x0, x1, x2, x3, x4, x5, x6, x7, x8, x9, x10, x11, x12, x13, x14, x15,
       x16, x17, x18, x19, x20, x21, x22, x23, x24, x25] := by
  rw [parseBytes_eq x0 x1 x2 x3 x4 x5 x6 x7 x8 x9 x10 x11 x12 x13 x14 x15
    x16 x17 x18 x19 x20 x21 x22 x23 x24 x25
    g0 g1 g2 g3 g4 g5 g6 g7 g8 g9 g10 g11 g12 g13 g14 g15 g16 g17 g18 g19
    g20 g21 g22 g23 g24 g25]
  rw [marshalVals_eq]
  · simp only [List.cons.injEq, and_true]
    omega
  all_goals omega

/-!
Facts about the alphabet and the byte-to-index table, checked by exhaustive
evaluation over the byte range.
-/

theorem decTable_length : decTable.length = 256 := by decide

theorem dec_oob (c : Nat) (h : 256 ≤ c) : dec c = 255 := by
  unfold dec
  exact List.getD_eq_default _ _ (by rw [decTable_length]; omega)

theorem dec_valid_fin : ∀ c : Fin 256, dec c.val ≠ 255 → dec c.val < 32 := by decide

theorem dec_valid_lt (c : Nat) (h : dec c ≠ 255) : dec c < 32 := by
  by_cases hc : c < 256
  · exact dec_valid_fin ⟨c, hc⟩ h
  · exact absurd (dec_oob c (by omega)) h

theorem dec_le7_fin : ∀ c : Fin 256, dec c.val ≠ 255 → (dec c.val ≤ 7 ↔ c.val ≤ 55) := by
  decide

theorem dec_le7_iff (c : Nat) (h : dec c ≠ 255) : dec c ≤ 7 ↔ c ≤ 55 := by
  by_cases hc : c < 256
  · exact dec_le7_fin ⟨c, hc⟩ h
  · exact absurd (dec_oob c (by omega)) h

theorem enc_dec_fin : ∀ e : Fin 32, dec (enc e.val) = e.val := by decide

theorem enc_dec_id (e : Nat) (h : e < 32) : dec (enc e) = e := enc_dec_fin ⟨e, h⟩

theorem enc_toUp_fin : ∀ c : Fin 256, dec c.val ≠ 255 → enc (dec c.val) = toUp c.val := by
  decide

theorem enc_toUp (c : Nat) (h : dec c ≠ 255) : enc (dec c) = toUp c := by
  by_cases hc : c < 256
  · exact enc_toUp_fin ⟨c, hc⟩ h
  · exact absurd (dec_oob c (by omega)) h

theorem enc_mem_fin : ∀ e : Fin 32, enc e.val ∈ Encoding := by decide

theorem enc_mem (e : Nat) (h : e < 32) : enc e ∈ Encoding := enc_mem_fin ⟨e, h⟩

theorem enc_first_fin : ∀ e : Fin 8, 48 ≤ enc e.val ∧ enc e.val ≤ 55 := by decide

theorem enc_first (e : Nat) (h : e < 8) : 48 ≤ enc e ∧ enc e ≤ 55 := enc_first_fin ⟨e, h⟩

theorem enc_ne_255 (e : Nat) (h : e < 32) : dec (enc e) ≠ 255 := by
  rw [enc_dec_id e h]; omega

/-- C3 (counterexample): the 26-character alphabet-only string "ZZ...Z"
fails to decode with `ErrOverflow` in both modes, so decode-then-encode
cannot reproduce it. -/
theorem c3_all_z_overflow :
    (∀ c ∈ List.replicate 26 90, dec c ≠ 255) ∧
      parse (List.replicate 26 90) false = .error .Overflow ∧
      parse (List.replicate 26 90) true = .error .Overflow := by
  refine ⟨by decide, by rfl, by rfl⟩

/-- C3 (amended): for every 26-character string of alphabet bytes
(case-insensitive) whose first character decodes to a value of at most 7,
decoding succeeds in both modes and re-encoding the result yields the
uppercase form of the input. -/
theorem c3_text_roundtrip (c0 c1 c2 c3 c4 c5 c6 c7 c8 c9 c10 c11 c12 c13 c14 c15 c16 c17 c18 c19 c20 c21 c22 c23 c24 c25 : Nat)
    (hval : ∀ c ∈ ([c0, c1, c2, c3, c4, c5, c6, c7, c8, c9, c10, c11, c12, c13, c14, c15, c16, c17, c18, c19, c20, c21, c22, c23, c24, c25] : List Nat), dec c ≠ 255)
    (hfirst : dec c0 ≤ 7) :
    parse [c0, c1, c2, c3, c4, c5, c6, c7, c8, c9, c10, c11, c12, c13, c14, c15, c16, c17, c18, c19, c20, c21, c22, c23, c24, c25] true = .ok (parseBytes [dec c0, dec c1, dec c2, dec c3, dec c4, dec c5, dec c6, dec c7, dec c8, dec c9, dec c10, dec c11, dec c12, dec c13, dec c14, dec c15, dec c16, dec c17, dec c18, dec c19, dec c20, dec c21, dec c22, dec c23, dec c24, dec c25]) ∧
      parse [c0, c1, c2, c3, c4, c5, c6, c7, c8, c9, c10, c11, c12, c13, c14, c15, c16, c17, c18, c19, c20, c21, c22, c23, c24, c25] false = .ok (parseBytes [dec c0, dec c1, dec c2, dec c3, dec c4, dec c5, dec c6, dec c7, dec c8, dec c9, dec c10, dec c11, dec c12, dec c13, dec c14, dec c15, dec c16, dec c17, dec c18, dec c19, dec c20, dec c21, dec c22, dec c23, dec c24, dec c25]) ∧
      MarshalText (parseBytes [dec c0, dec c1, dec c2, dec c3, dec c4, dec c5, dec c6, dec c7, dec c8, dec c9, dec c10, dec c11, dec c12, dec c13, dec c14, dec c15, dec c16, dec c17, dec c18, dec c19, dec c20, dec c21, dec c22, dec c23, dec c24, dec c25]) = [toUp c0, toUp c1, toUp c2, toUp c3, toUp c4, toUp c5, toUp c6, toUp c7, toUp c8, toUp c9, toUp c10, toUp c11, toUp c12, toUp c13, toUp c14, toUp c15, toUp c16, toUp c17, toUp c18, toUp c19, toUp c20, toUp c21, toUp c22, toUp c23, toUp c24, toUp c25] := by
  have v0 : dec c0 ≠ 255 := hval c0 (by simp)
  have v1 : dec c1 ≠ 255 := hval c1 (by simp)
  have v2 : dec c2 ≠ 255 := hval c2 (by simp)
  have v3 : dec c3 ≠ 255 := hval c3 (by simp)
  have v4 : dec c4 ≠ 255 := hval c4 (by simp)
  have v5 : dec c5 ≠ 255 := hval c5 (by simp)
  have v6 : dec c6 ≠ 255 := hval c6 (by simp)
  have v7 : dec c7 ≠ 255 := hval c7 (by simp)
  have v8 : dec c8 ≠ 255 := hval c8 (by simp)
  have v9 : dec c9 ≠ 255 := hval c9 (by simp)
  have v10 : dec c10 ≠ 255 := hval c10 (by simp)
  have v11 : dec c11 ≠ 255 := hval c11 (by simp)
  have v12 : dec c12 ≠ 255 := hval c12 (by simp)
  have v13 : dec c13 ≠ 255 := hval c13 (by simp)
  have v14 : dec c14 ≠ 255 := hval c14 (by simp)
  have v15 : dec c15 ≠ 255 := hval c15 (by simp)
  have v16 : dec c16 ≠ 255 := hval c16 (by simp)
  have v17 : dec c17 ≠ 255 := hval c17 (by simp)
  have v18 : dec c18 ≠ 255 := hval c18 (by simp)
  have v19 : dec c19 ≠ 255 := hval c19 (by simp)
  have v20 : dec c20 ≠ 255 := hval c20 (by simp)
  have v21 : dec c21 ≠ 255 := hval c21 (by simp)
  have v22 : dec c22 ≠ 255 := hval c22 (by simp)
  have v23 : dec c23 ≠ 255 := hval c23 (by simp)
  have v24 : dec c24 ≠ 255 := hval c24 (by simp)
  have v25 : dec c25 ≠ 255 := hval c25 (by simp)
  have w0 : dec c0 < 32 := dec_valid_lt c0 v0
  have w1 : dec c1 < 32 := dec_valid_lt c1 v1
  have w2 : dec c2 < 32 := dec_valid_lt c2 v2
  have w3 : dec c3 < 32 := dec_valid_lt c3 v3
  have w4 : dec c4 < 32 := dec_valid_lt c4 v4
  have w5 : dec c5 < 32 := dec_valid_lt c5 v5
  have w6 : dec c6 < 32 := dec_valid_lt c6 v6
  have w7 : dec c7 < 32 := dec_valid_lt c7 v7
  have w8 : dec c8 < 32 := dec_valid_lt c8 v8
  have w9 : dec c9 < 32 := dec_valid_lt c9 v9
  have w10 : dec c10 < 32 := dec_valid_lt c10 v10
  have w11 : dec c11 < 32 := dec_valid_lt c11 v11
  have w12 : dec c12 < 32 := dec_valid_lt c12 v12
  have w13 : dec c13 < 32 := dec_valid_lt c13 v13
  have w14 : dec c14 < 32 := dec_valid_lt c14 v14
  have w15 : dec c15 < 32 := dec_valid_lt c15 v15
  have w16 : dec c16 < 32 := dec_valid_lt c16 v16
  have w17 : dec c17 < 32 := dec_valid_lt c17 v17
  have w18 : dec c18 < 32 := dec_valid_lt c18 v18
  have w19 : dec c19 < 32 := dec_valid_lt c19 v19
  have w20 : dec c20 < 32 := dec_valid_lt c20 v20
  have w21 : dec c21 < 32 := dec_valid_lt c21 v21
  have w22 : dec c22 < 32 := dec_valid_lt c22 v22
  have w23 : dec c23 < 32 := dec_valid_lt c23 v23
  have w24 : dec c24 < 32 := dec_valid_lt c24 v24
  have w25 : dec c25 < 32 := dec_valid_lt c25 v25
  have hc0 : c0 ≤ 55 := (dec_le7_iff c0 v0).mp hfirst
  refine ⟨?_, ?_, ?_⟩
  · simp only [parse]
    rw [if_neg (by simp), if_neg (by simp [v0, v1, v2, v3, v4, v5, v6, v7, v8, v9, v10, v11, v12, v13, v14, v15, v16, v17, v18, v19, v20, v21, v22, v23, v24, v25]), if_neg (by omega)]
  · simp only [parse]
    rw [if_neg (by simp), if_neg (by simp), if_neg (by omega)]
  · rw [MarshalText, marshal_parse_core (dec c0) (dec c1) (dec c2) (dec c3) (dec c4) (dec c5) (dec c6) (dec c7) (dec c8) (dec c9) (dec c10) (dec c11) (dec c12) (dec c13) (dec c14) (dec c15) (dec c16) (dec c17) (dec c18) (dec c19) (dec c20) (dec c21) (dec c22) (dec c23) (dec c24) (dec c25)
      w0 w1 w2 w3 w4 w5 w6 w7 w8 w9 w10 w11 w12 w13 w14 w15 w16 w17 w18 w19 w20 w21 w22 w23 w24 w25 (by omega)]
    simp only [List.map_cons, List.map_nil]
    rw [enc_toUp c0 v0, enc_toUp c1 v1, enc_toUp c2 v2, enc_toUp c3 v3, enc_toUp c4 v4, enc_toUp c5 v5, enc_toUp c6 v6, enc_toUp c7 v7, enc_toUp c8 v8, enc_toUp c9 v9, enc_toUp c10 v10, enc_toUp c11 v11, enc_toUp c12 v12, enc_toUp c13 v13, enc_toUp c14 v14, enc_toUp c15 v15, enc_toUp c16 v16, enc_toUp c17 v17, enc_toUp c18 v18, enc_toUp c19 v19, enc_toUp c20 v20, enc_toUp c21 v21, enc_toUp c22 v22, enc_toUp c23 v23, enc_toUp c24 v24, enc_toUp c25 v25]

/-- C3 (witness): the concrete vector "01BX5ZZKBKACTAV9WEVGEMMVRZ" decodes in
both modes and re-encodes to itself. -/
theorem c3_text_roundtrip_witness :
    parse [48, 49, 66, 88, 53, 90, 90, 75, 66, 75, 65, 67, 84, 65, 86, 57, 87, 69, 86, 71, 69, 77, 77, 86, 82, 90] true = .ok (parseBytes [dec 48, dec 49, dec 66, dec 88, dec 53, dec 90, dec 90, dec 75, dec 66, dec 75, dec 65, dec 67, dec 84, dec 65, dec 86, dec 57, dec 87, dec 69, dec 86, dec 71, dec 69, dec 77, dec 77, dec 86, dec 82, dec 90]) ∧
      parse [48, 49, 66, 88, 53, 90, 90, 75, 66, 75, 65, 67, 84, 65, 86, 57, 87, 69, 86, 71, 69, 77, 77, 86, 82, 90] false = .ok (parseBytes [dec 48, dec 49, dec 66, dec 88, dec 53, dec 90, dec 90, dec 75, dec 66, dec 75, dec 65, dec 67, dec 84, dec 65, dec 86, dec 57, dec 87, dec 69, dec 86, dec 71, dec 69, dec 77, dec 77, dec 86, dec 82, dec 90]) ∧
      MarshalText (parseBytes [dec 48, dec 49, dec 66, dec 88, dec 53, dec 90, dec 90, dec 75, dec 66, dec 75, dec 65, dec 67, dec 84, dec 65, dec 86, dec 57, dec 87, dec 69, dec 86, dec 71, dec 69, dec 77, dec 77, dec 86, dec 82, dec 90]) = [toUp 48, toUp 49, toUp 66, toUp 88, toUp 53, toUp 90, toUp 90, toUp 75, toUp 66, toUp 75, toUp 65, toUp 67, toUp 84, toUp 65, toUp 86, toUp 57, toUp 87, toUp 69, toUp 86, toUp 71, toUp 69, toUp 77, toUp 77, toUp 86, toUp 82, toUp 90] :=
  c3_text_roundtrip 48 49 66 88 53 90 90 75 66 75 65 67 84 65 86 57 87 69 86 71 69 77 77 86 82 90 (by decide) (by decide)

/-- C5 (counterexample): the first character `'!'` maps to the table sentinel
`0xFF > 7`, yet non-strict decoding of "!0000000000000000000000000" succeeds
and strict decoding reports `ErrInvalidCharacters`, not `ErrOverflow`. -/
theorem c5_sentinel_not_overflow :
    7 < dec 33 ∧
      parse ([33, 48, 48, 48, 48, 48, 48, 48, 48, 48, 48, 48, 48, 48, 48, 48, 48, 48, 48, 48, 48, 48, 48, 48, 48, 48] : List Nat) false ≠ .error .Overflow ∧
      parse ([33, 48, 48, 48, 48, 48, 48, 48, 48, 48, 48, 48, 48, 48, 48, 48, 48, 48, 48, 48, 48, 48, 48, 48, 48, 48] : List Nat) true = .error .InvalidCharacters := by
  refine ⟨by decide, by intro h; exact absurd h (by rw [show parse ([33, 48, 48, 48, 48, 48, 48, 48, 48, 48, 48, 48, 48, 48, 48, 48, 48, 48, 48, 48, 48, 48, 48, 48, 48, 48] : List Nat) false = .ok (parseBytes [dec 33, dec 48, dec 48, dec 48, dec 48, dec 48, dec 48, dec 48, dec 48, dec 48, dec 48, dec 48, dec 48, dec 48, dec 48, dec 48, dec 48, dec 48, dec 48, dec 48, dec 48, dec 48, dec 48, dec 48, dec 48, dec 48]) from rfl]; intro h; cases h), by rfl⟩

/-- C5 (amended): for 26-character strings made only of alphabet bytes, a
first character whose table value exceeds 7 makes decoding fail with
`ErrOverflow` in both modes; outside the alphabet the sentinel value `0xFF`
instead triggers `ErrInvalidCharacters` (strict) or no error (non-strict). -/
theorem c5_first_symbol_overflow (c0 c1 c2 c3 c4 c5 c6 c7 c8 c9 c10 c11 c12 c13 c14 c15 c16 c17 c18 c19 c20 c21 c22 c23 c24 c25 : Nat)
    (hval : ∀ c ∈ ([c0, c1, c2, c3, c4, c5, c6, c7, c8, c9, c10, c11, c12, c13, c14, c15, c16, c17, c18, c19, c20, c21, c22, c23, c24, c25] : List Nat), dec c ≠ 255)
    (hfirst : 7 < dec c0) :
    parse [c0, c1, c2, c3, c4, c5, c6, c7, c8, c9, c10, c11, c12, c13, c14, c15, c16, c17, c18, c19, c20, c21, c22, c23, c24, c25] true = .error .Overflow ∧
      parse [c0, c1, c2, c3, c4, c5, c6, c7, c8, c9, c10, c11, c12, c13, c14, c15, c16, c17, c18, c19, c20, c21, c22, c23, c24, c25] false = .error .Overflow := by
  have v0 : dec c0 ≠ 255 := hval c0 (by simp)
  have v1 : dec c1 ≠ 255 := hval c1 (by simp)
  have v2 : dec c2 ≠ 255 := hval c2 (by simp)
  have v3 : dec c3 ≠ 255 := hval c3 (by simp)
  have v4 : dec c4 ≠ 255 := hval c4 (by simp)
  have v5 : dec c5 ≠ 255 := hval c5 (by simp)
  have v6 : dec c6 ≠ 255 := hval c6 (by simp)
  have v7 : dec c7 ≠ 255 := hval c7 (by simp)
  have v8 : dec c8 ≠ 255 := hval c8 (by simp)
  have v9 : dec c9 ≠ 255 := hval c9 (by simp)
  have v10 : dec c10 ≠ 255 := hval c10 (by simp)
  have v11 : dec c11 ≠ 255 := hval c11 (by simp)
  have v12 : dec c12 ≠ 255 := hval c12 (by simp)
  have v13 : dec c13 ≠ 255 := hval c13 (by simp)
  have v14 : dec c14 ≠ 255 := hval c14 (by simp)
  have v15 : dec c15 ≠ 255 := hval c15 (by simp)
  have v16 : dec c16 ≠ 255 := hval c16 (by simp)
  have v17 : dec c17 ≠ 255 := hval c17 (by simp)
  have v18 : dec c18 ≠ 255 := hval c18 (by simp)
  have v19 : dec c19 ≠ 255 := hval c19 (by simp)
  have v20 : dec c20 ≠ 255 := hval c20 (by simp)
  have v21 : dec c21 ≠ 255 := hval c21 (by simp)
  have v22 : dec c22 ≠ 255 := hval c22 (by simp)
  have v23 : dec c23 ≠ 255 := hval c23 (by simp)
  have v24 : dec c24 ≠ 255 := hval c24 (by simp)
  have v25 : dec c25 ≠ 255 := hval c25 (by simp)
  have hc0 : 55 < c0 := by
    rcases Nat.lt_or_ge 55 c0 with h | h
    · exact h
    · exact absurd ((dec_le7_iff c0 v0).mpr h) (by omega)
  constructor
  · simp only [parse]
    rw [if_neg (by simp), if_neg (by simp [v0, v1, v2, v3, v4, v5, v6, v7, v8, v9, v10, v11, v12, v13, v14, v15, v16, v17, v18, v19, v20, v21, v22, v23, v24, v25]), if_pos (by omega)]
  · simp only [parse]
    rw [if_neg (by simp), if_neg (by simp), if_pos (by omega)]

/-- C5 (witness): "80000000000000000000000000" overflows in both modes. -/
theorem c5_first_symbol_overflow_witness :
    parse ([56, 48, 48, 48, 48, 48, 48, 48, 48, 48, 48, 48, 48, 48, 48, 48, 48, 48, 48, 48, 48, 48, 48, 48, 48, 48] : List Nat) true = .error .Overflow ∧
      parse ([56, 48, 48, 48, 48, 48, 48, 48, 48, 48, 48, 48, 48, 48, 48, 48, 48, 48, 48, 48, 48, 48, 48, 48, 48, 48] : List Nat) false = .error .Overflow :=
  c5_first_symbol_overflow 56 48 48 48 48 48 48 48 48 48 48 48 48 48 48 48 48 48 48 48 48 48 48 48 48 48 (by decide) (by decide)


/-- C9 (counterexample): `Parse` of the empty string returns the zero ULID
with no error even though the length differs from 26. -/
theorem c9_empty_string_ok :
    ([] : List Nat).length ≠ 26 ∧ Parse [] = .ok ZeroULID :=
  ⟨by decide, rfl⟩

/-- C9 (amended): `ParseStrict` fails with `ErrDataSize` on every input whose
length differs from 26; `Parse` does too, except for the empty string, which
short-circuits to the zero ULID with no error. -/
theorem c9_data_size (s : List Nat) (h : s.length ≠ 26) :
    ParseStrict s = .error .DataSize ∧ (s ≠ [] → Parse s = .error .DataSize) := by
  constructor
  · rw [ParseStrict]; simp only [parse]; rw [if_pos h]
  · intro hne
    rw [Parse, if_neg hne]
    simp only [parse]; rw [if_pos h]

/-- C9 (witness): the one-character string "0" fails with `ErrDataSize` in
both variants. -/
theorem c9_data_size_witness :
    ParseStrict [48] = .error .DataSize ∧
      (([48] : List Nat) ≠ [] → Parse [48] = .error .DataSize) :=
  c9_data_size [48] (by decide)

/-- C10: `String` of any 16-byte ULID is 26 characters, all from the
alphabet, the first between '0' and '7', and both `Parse` and `ParseStrict`
decode it back to the same ULID. -/
theorem c10_encode_then_decode (b0 b1 b2 b3 b4 b5 b6 b7 b8 b9 b10 b11 b12 b13 b14 b15 : Nat)
    (h0 : b0 < 256) (h1 : b1 < 256) (h2 : b2 < 256) (h3 : b3 < 256)
    (h4 : b4 < 256) (h5 : b5 < 256) (h6 : b6 < 256) (h7 : b7 < 256)
    (h8 : b8 < 256) (h9 : b9 < 256) (h10 : b10 < 256) (h11 : b11 < 256)
    (h12 : b12 < 256) (h13 : b13 < 256) (h14 : b14 < 256) (h15 : b15 < 256) :
    (MarshalText [b0, b1, b2, b3, b4, b5, b6, b7, b8, b9, b10, b11, b12, b13, b14, b15]).length = 26 ∧
      (∀ c ∈ MarshalText [b0, b1, b2, b3, b4, b5, b6, b7, b8, b9, b10, b11, b12, b13, b14, b15], c ∈ Encoding) ∧
      48 ≤ (MarshalText [b0, b1, b2, b3, b4, b5, b6, b7, b8, b9, b10, b11, b12, b13, b14, b15]).headD 0 ∧
      (MarshalText [b0, b1, b2, b3, b4, b5, b6, b7, b8, b9, b10, b11, b12, b13, b14, b15]).headD 0 ≤ 55 ∧
      Parse (MarshalText [b0, b1, b2, b3, b4, b5, b6, b7, b8, b9, b10, b11, b12, b13, b14, b15]) = .ok [b0, b1, b2, b3, b4, b5, b6, b7, b8, b9, b10, b11, b12, b13, b14, b15] ∧
      ParseStrict (MarshalText [b0, b1, b2, b3, b4, b5, b6, b7, b8, b9, b10, b11, b12, b13, b14, b15]) = .ok [b0, b1, b2, b3, b4, b5, b6, b7, b8, b9, b10, b11, b12, b13, b14, b15] := by
  have hmv := marshalVals_eq b0 b1 b2 b3 b4 b5 b6 b7 b8 b9 b10 b11 b12 b13 b14 b15 h0 h1 h2 h3 h4 h5 h6 h7 h8 h9 h10 h11 h12 h13 h14 h15
  have hmt : MarshalText [b0, b1, b2, b3, b4, b5, b6, b7, b8, b9, b10, b11, b12, b13, b14, b15] = [enc (b0 / 32), enc (b0 % 32), enc (b1 / 8), enc (b1 % 8 * 4 + b2 / 64), enc (b2 / 2 % 32), enc (b2 % 2 * 16 + b3 / 16), enc (b3 % 16 * 2 + b4 / 128), enc (b4 / 4 % 32), enc (b4 % 4 * 8 + b5 / 32), enc (b5 % 32), enc (b6 / 8), enc (b6 % 8 * 4 + b7 / 64), enc (b7 / 2 % 32), enc (b7 % 2 * 16 + b8 / 16), enc (b8 % 16 * 2 + b9 / 128), enc (b9 / 4 % 32), enc (b9 % 4 * 8 + b10 / 32), enc (b10 % 32), enc (b11 / 8), enc (b11 % 8 * 4 + b12 / 64), enc (b12 / 2 % 32), enc (b12 % 2 * 16 + b13 / 16), enc (b13 % 16 * 2 + b14 / 128), enc (b14 / 4 % 32), enc (b14 % 4 * 8 + b15 / 32), enc (b15 % 32)] := by
    rw [MarshalText, hmv]
    simp only [List.map_cons, List.map_nil]
  have e0 : b0 / 32 < 32 := by omega
  have e1 : b0 % 32 < 32 := by omega
  have e2 : b1 / 8 < 32 := by omega
  have e3 : b1 % 8 * 4 + b2 / 64 < 32 := by omega
  have e4 : b2 / 2 % 32 < 32 := by omega
  have e5 : b2 % 2 * 16 + b3 / 16 < 32 := by omega
  have e6 : b3 % 16 * 2 + b4 / 128 < 32 := by omega
  have e7 : b4 / 4 % 32 < 32 := by omega
  have e8 : b4 % 4 * 8 + b5 / 32 < 32 := by omega
  have e9 : b5 % 32 < 32 := by omega
  have e10 : b6 / 8 < 32 := by omega
  have e11 : b6 % 8 * 4 + b7 / 64 < 32 := by omega
  have e12 : b7 / 2 % 32 < 32 := by omega
  have e13 : b7 % 2 * 16 + b8 / 16 < 32 := by omega
  have e14 : b8 % 16 * 2 + b9 / 128 < 32 := by omega
  have e15 : b9 / 4 % 32 < 32 := by omega
  have e16 : b9 % 4 * 8 + b10 / 32 < 32 := by omega
  have e17 : b10 % 32 < 32 := by omega
  have e18 : b11 / 8 < 32 := by omega
  have e19 : b11 % 8 * 4 + b12 / 64 < 32 := by omega
  have e20 : b12 / 2 % 32 < 32 := by omega
  have e21 : b12 % 2 * 16 + b13 / 16 < 32 := by omega
  have e22 : b13 % 16 * 2 + b14 / 128 < 32 := by omega
  have e23 : b14 / 4 % 32 < 32 := by omega
  have e24 : b14 % 4 * 8 + b15 / 32 < 32 := by omega
  have e25 : b15 % 32 < 32 := by omega
  have f0 : b0 / 32 < 8 := by omega
  refine ⟨by rw [hmt]; rfl, ?_, ?_, ?_, ?_, ?_⟩
  · rw [hmt]
    intro c hc
    simp only [List.mem_cons, List.not_mem_nil, or_false] at hc
    rcases hc with rfl | rfl | rfl | rfl | rfl | rfl | rfl | rfl | rfl | rfl | rfl | rfl | rfl | rfl | rfl | rfl | rfl | rfl | rfl | rfl | rfl | rfl | rfl | rfl | rfl | rfl
    exacts [enc_mem _ e0, enc_mem _ e1, enc_mem _ e2, enc_mem _ e3, enc_mem _ e4, enc_mem _ e5, enc_mem _ e6, enc_mem _ e7, enc_mem _ e8, enc_mem _ e9, enc_mem _ e10, enc_mem _ e11, enc_mem _ e12, enc_mem _ e13, enc_mem _ e14, enc_mem _ e15, enc_mem _ e16, enc_mem _ e17, enc_mem _ e18, enc_mem _ e19, enc_mem _ e20, enc_mem _ e21, enc_mem _ e22, enc_mem _ e23, enc_mem _ e24, enc_mem _ e25]
  · rw [hmt]
    exact (enc_first _ f0).1
  · rw [hmt]
    exact (enc_first _ f0).2
  · rw [hmt, Parse, if_neg (by simp)]
    simp only [parse]
    rw [if_neg (by simp), if_neg (by simp),
      if_neg (by have := (enc_first _ f0).2; omega)]
    rw [enc_dec_id _ e0, enc_dec_id _ e1, enc_dec_id _ e2, enc_dec_id _ e3, enc_dec_id _ e4, enc_dec_id _ e5, enc_dec_id _ e6, enc_dec_id _ e7, enc_dec_id _ e8, enc_dec_id _ e9, enc_dec_id _ e10, enc_dec_id _ e11, enc_dec_id _ e12, enc_dec_id _ e13, enc_dec_id _ e14, enc_dec_id _ e15, enc_dec_id _ e16, enc_dec_id _ e17, enc_dec_id _ e18, enc_dec_id _ e19, enc_dec_id _ e20, enc_dec_id _ e21, enc_dec_id _ e22, enc_dec_id _ e23, enc_dec_id _ e24, enc_dec_id _ e25]
    rw [← hmv, parse_marshal_core b0 b1 b2 b3 b4 b5 b6 b7 b8 b9 b10 b11 b12 b13 b14 b15 h0 h1 h2 h3 h4 h5 h6 h7 h8 h9 h10 h11 h12 h13 h14 h15]
  · rw [hmt, ParseStrict]
    simp only [parse]
    rw [if_neg (by simp),
      if_neg (by simp only [enc_dec_id _ e0, enc_dec_id _ e1, enc_dec_id _ e2, enc_dec_id _ e3, enc_dec_id _ e4, enc_dec_id _ e5, enc_dec_id _ e6, enc_dec_id _ e7, enc_dec_id _ e8, enc_dec_id _ e9, enc_dec_id _ e10, enc_dec_id _ e11, enc_dec_id _ e12, enc_dec_id _ e13, enc_dec_id _ e14, enc_dec_id _ e15, enc_dec_id _ e16, enc_dec_id _ e17, enc_dec_id _ e18, enc_dec_id _ e19, enc_dec_id _ e20, enc_dec_id _ e21, enc_dec_id _ e22, enc_dec_id _ e23, enc_dec_id _ e24, enc_dec_id _ e25]; omega),
      if_neg (by have := (enc_first _ f0).2; omega)]
    rw [enc_dec_id _ e0, enc_dec_id _ e1, enc_dec_id _ e2, enc_dec_id _ e3, enc_dec_id _ e4, enc_dec_id _ e5, enc_dec_id _ e6, enc_dec_id _ e7, enc_dec_id _ e8, enc_dec_id _ e9, enc_dec_id _ e10, enc_dec_id _ e11, enc_dec_id _ e12, enc_dec_id _ e13, enc_dec_id _ e14, enc_dec_id _ e15, enc_dec_id _ e16, enc_dec_id _ e17, enc_dec_id _ e18, enc_dec_id _ e19, enc_dec_id _ e20, enc_dec_id _ e21, enc_dec_id _ e22, enc_dec_id _ e23, enc_dec_id _ e24, enc_dec_id _ e25]
    rw [← hmv, parse_marshal_core b0 b1 b2 b3 b4 b5 b6 b7 b8 b9 b10 b11 b12 b13 b14 b15 h0 h1 h2 h3 h4 h5 h6 h7 h8 h9 h10 h11 h12 h13 h14 h15]

/-- C10 (witness): the all-zero ULID encodes to 26 '0' characters and decodes
back in both variants. -/
theorem c10_encode_then_decode_witness :
    (MarshalText ZeroULID).length = 26 ∧
      (∀ c ∈ MarshalText ZeroULID, c ∈ Encoding) ∧
      48 ≤ (MarshalText ZeroULID).headD 0 ∧
      (MarshalText ZeroULID).headD 0 ≤ 55 ∧
      Parse (MarshalText ZeroULID) = .ok ZeroULID ∧
      ParseStrict (MarshalText ZeroULID) = .ok ZeroULID :=
  c10_encode_then_decode 0 0 0 0 0 0 0 0 0 0 0 0 0 0 0 0 (by decide) (by decide) (by decide) (by decide) (by decide) (by decide) (by decide) (by decide) (by decide) (by decide) (by decide) (by decide) (by decide) (by decide) (by decide) (by decide)


/-!
The 80-bit counter of `numeric.go` and the monotonic entropy generator of
`entropy.go`.
-/

/-- `uint80`: 16-bit high word, 64-bit low word. -/
structure uint80 where
  Hi : Nat
  Lo : Nat
deriving DecidableEq, Repr

/-- The 80-bit numeric value held by a `uint80`. -/
def uint80.val (u : uint80) : Nat := u.Hi * 2 ^ 64 + u.Lo

/-- `SetBytes`: `Hi` from the big-endian first two bytes, `Lo` from the
remaining eight. -/
def uint80.SetBytes : List Nat → uint80
  | [b0, b1, b2, b3, b4, b5, b6, b7, b8, b9] =>
    ⟨(b0 <<< 8) ||| b1,
     (b2 <<< 56) ||| (b3 <<< 48) ||| (b4 <<< 40) ||| (b5 <<< 32) |||
       (b6 <<< 24) ||| (b7 <<< 16) ||| (b8 <<< 8) ||| b9⟩
  | _ => ⟨0, 0⟩

/-- `AppendTo`: the ten big-endian bytes of the value; Go's `byte(x)`
conversion truncates modulo 256. -/
def uint80.AppendTo (u : uint80) : List Nat :=
  [(u.Hi >>> 8) % 256, u.Hi % 256,
   (u.Lo >>> 56) % 256, (u.Lo >>> 48) % 256, (u.Lo >>> 40) % 256,
   (u.Lo >>> 32) % 256, (u.Lo >>> 24) % 256, (u.Lo >>> 16) % 256,
   (u.Lo >>> 8) % 256, u.Lo % 256]

/-- `Add`: wrap-around addition into the 64-bit low word; a low-word wrap
increments the 16-bit high word (itself wrapping), and the overflow report
compares the new high word against its previous value.  The Go method
mutates the receiver and returns the flag; here the pair holds the final
receiver state and the flag. -/
def uint80.Add (u : uint80) (n : Nat) : uint80 × Bool :=
  let lo := u.Lo
  let hi := u.Hi
  let lo2 := (u.Lo + n) % 2 ^ 64
  let hi2 := if lo2 < lo then (u.Hi + 1) % 2 ^ 16 else u.Hi
  (⟨hi2, lo2⟩, decide (hi2 < hi))

/-- `IsZero`: both words are zero. -/
def uint80.IsZero (u : uint80) : Bool := u.Hi == 0 && u.Lo == 0

/-- A `uint80` whose words are inside their machine ranges. -/
def uint80.Norm (u : uint80) : Prop := u.Hi < 2 ^ 16 ∧ u.Lo < 2 ^ 64

/-- Full specification of `Add` on normalized values: the result is the sum
modulo `2 ^ 80`, stays normalized, and the flag is set exactly on a true
80-bit wrap. -/
theorem uint80_add_spec (u : uint80) (n : Nat) (hu : u.Norm) (hn : n < 2 ^ 64) :
    (u.Add n).1.val = (u.val + n) % 2 ^ 80 ∧ (u.Add n).1.Norm ∧
      ((u.Add n).2 = true ↔ 2 ^ 80 ≤ u.val + n) := by
  obtain ⟨hHi, hLo⟩ := hu
  simp only [uint80.Add, uint80.val, uint80.Norm]
  by_cases hwrap : u.Lo + n < 2 ^ 64
  · rw [Nat.mod_eq_of_lt hwrap, if_neg (by omega)]
    simp only [decide_eq_true_eq]
    constructor
    · rw [Nat.mod_eq_of_lt (by omega)]; omega
    · omega
  · have hlo2 : (u.Lo + n) % 2 ^ 64 = u.Lo + n - 2 ^ 64 := by omega
    rw [hlo2, if_pos (by omega)]
    simp only [decide_eq_true_eq]
    by_cases hhi : u.Hi + 1 < 2 ^ 16
    · rw [Nat.mod_eq_of_lt hhi, Nat.mod_eq_of_lt (by omega)]
      constructor
      · omega
      · omega
    · have h1 : u.Hi = 2 ^ 16 - 1 := by omega
      have h2 : (u.Hi + 1) % 2 ^ 16 = 0 := by omega
      rw [h2]
      constructor
      · have : u.Hi * 2 ^ 64 + u.Lo + n - 2 ^ 80 < 2 ^ 80 := by omega
        omega
      · omega

/-- C6: `Add` leaves the counter holding the exact sum modulo `2 ^ 80` in
normalized form and reports overflow exactly when the true sum reaches
`2 ^ 80`; in particular a low-word carry that does not wrap the high word
past its maximum reports no overflow. -/
theorem c6_uint80_add (u : uint80) (n : Nat) (hu : u.Norm) (hn : n < 2 ^ 64) :
    (u.Add n).1.val = (u.val + n) % 2 ^ 80 ∧ (u.Add n).1.Norm ∧
      ((u.Add n).2 = true ↔ 2 ^ 80 ≤ u.val + n) ∧
      (2 ^ 64 ≤ u.Lo + n → u.Hi < 2 ^ 16 - 1 → (u.Add n).2 = false) := by
  obtain ⟨h1, h2, h3⟩ := uint80_add_spec u n hu hn
  refine ⟨h1, h2, h3, fun hcarry hhi => ?_⟩
  have : ¬ 2 ^ 80 ≤ u.val + n := by
    simp only [uint80.val]
    obtain ⟨hH, hL⟩ := hu
    omega
  rcases h : (u.Add n).2 with _ | _
  · rfl
  · exact absurd (h3.mp h) this

/-- C6 (witness): a low-word carry with a small high word reports no
overflow and produces the exact sum. -/
theorem c6_uint80_add_witness :
    ((uint80.mk 3 (2 ^ 64 - 1)).Add 5).1.val =
        ((uint80.mk 3 (2 ^ 64 - 1)).val + 5) % 2 ^ 80 ∧
      ((uint80.mk 3 (2 ^ 64 - 1)).Add 5).1.Norm ∧
      (((uint80.mk 3 (2 ^ 64 - 1)).Add 5).2 = true ↔
        2 ^ 80 ≤ (uint80.mk 3 (2 ^ 64 - 1)).val + 5) ∧
      (2 ^ 64 ≤ (uint80.mk 3 (2 ^ 64 - 1)).Lo + 5 →
        (uint80.mk 3 (2 ^ 64 - 1)).Hi < 2 ^ 16 - 1 →
        ((uint80.mk 3 (2 ^ 64 - 1)).Add 5).2 = false) :=
  c6_uint80_add ⟨3, 2 ^ 64 - 1⟩ 5 (by constructor <;> norm_num) (by norm_num)

/-- Modelled from the spec: `math/bits.Len64` of the Go standard library (an
external collaborator of this package) — the minimum number of bits required
to represent `x`, 0 for `x = 0`. -/
def bitsLen64 (x : Nat) : Nat := ((List.range 64).filter (fun i => 0 < x >>> i)).length

/-- The unrolled little-endian conversion switch of
`MonotonicEntropy.random`: note that `byteLen` 3 reads four buffer bytes and
`byteLen` 5–7 read eight (the extra positions hold stale buffer content). -/
def leSwitch (byteLen : Nat) (rand : List Nat) : Nat :=
  match byteLen with
  | 1 => rand.getD 0 0
  | 2 => rand.getD 0 0 ||| (rand.getD 1 0 <<< 8)
  | 3 | 4 =>
    rand.getD 0 0 ||| (rand.getD 1 0 <<< 8) ||| (rand.getD 2 0 <<< 16) |||
      (rand.getD 3 0 <<< 24)
  | 5 | 6 | 7 | 8 =>
    rand.getD 0 0 ||| (rand.getD 1 0 <<< 8) ||| (rand.getD 2 0 <<< 16) |||
      (rand.getD 3 0 <<< 24) ||| (rand.getD 4 0 <<< 32) |||
      (rand.getD 5 0 <<< 40) ||| (rand.getD 6 0 <<< 48) |||
      (rand.getD 7 0 <<< 56)
  | _ => 0

/-- `MonotonicEntropy`: the generator state.  The wrapped `io.Reader` is
modelled by an explicit byte stream passed to each operation, and the
`rng` fast-path interface by the `hasRng` flag plus a stream of `Int63n`
results. -/
structure MonotonicEntropy where
  ms : Nat
  inc : Nat
  entropy : uint80
  rand : List Nat
  hasRng : Bool
deriving DecidableEq, Repr

/-- `Monotonic(entropy, inc)`: zero state, `inc == 0` replaced by
`math.MaxUint32`, the `rng` capability recorded from a type check on the
supplied source. -/
def Monotonic (inc : Nat) (hasRng : Bool) : MonotonicEntropy :=
  ⟨0, if inc = 0 then 4294967295 else inc, ⟨0, 0⟩, [0, 0, 0, 0, 0, 0, 0, 0], hasRng⟩

/-- The rejection loop of `MonotonicEntropy.random`: read `byteLen` bytes
into the scratch buffer, mask the first byte, convert little-endian, and
retry while the candidate is zero or at least `inc`.  Recursion is on fuel;
`none` covers a read failure or exhausted fuel (the Go loop can run
unboundedly).  `maskedBuf` is the scratch buffer after `io.ReadFull` into its
first `byteLen` positions and the mask on byte 0. -/
def maskedBuf (byteLen msbitLen : Nat) (rand stream : List Nat) : List Nat :=
  (stream.take byteLen ++ rand.drop byteLen).set 0
    (((stream.take byteLen ++ rand.drop byteLen).getD 0 0) &&& ((1 <<< msbitLen) - 1))

def MERandomLoop (inc byteLen msbitLen : Nat) (rand stream : List Nat) :
    Nat → Option (Nat × List Nat × List Nat)
  | 0 => none
  | fuel + 1 =>
    if stream.length < byteLen then none
    else if leSwitch byteLen (maskedBuf byteLen msbitLen rand stream) = 0 ∨
        inc ≤ leSwitch byteLen (maskedBuf byteLen msbitLen rand stream) then
      MERandomLoop inc byteLen msbitLen (maskedBuf byteLen msbitLen rand stream)
        (stream.drop byteLen) fuel
    else
      some (leSwitch byteLen (maskedBuf byteLen msbitLen rand stream),
        maskedBuf byteLen msbitLen rand stream, stream.drop byteLen)

/-- `MonotonicEntropy.random`: 1 when `inc ≤ 1`; `1 + Int63n(inc)` on the
fast path (the head of `rngVals`, constrained to `< inc` by the callers'
well-formedness hypothesis, per the `math/rand` contract); otherwise one
more than an accepted candidate of the rejection loop.  Returns the result,
the new scratch buffer, and the remaining oracle/stream. -/
def MERandom (m : MonotonicEntropy) (rngVals stream : List Nat) (fuel : Nat) :
    Option (Nat × List Nat × List Nat × List Nat) :=
  if m.inc ≤ 1 then some (1, m.rand, rngVals, stream)
  else if m.hasRng then
    match rngVals with
    | k :: rest => some (1 + k, m.rand, rest, stream)
    | [] => none
  else
    match MERandomLoop m.inc ((bitsLen64 m.inc + 7) / 8)
        (if bitsLen64 m.inc % 8 = 0 then 8 else bitsLen64 m.inc % 8)
        m.rand stream fuel with
    | none => none
    | some (c, rand2, stream2) => some (1 + c, rand2, rngVals, stream2)

/-- `MonotonicEntropy.increment`: draw the random increment and `Add` it
into the stored entropy — the `Add` mutation happens even when it overflows,
in which case `ErrMonotonicOverflow` is reported. -/
def MEIncrement (m : MonotonicEntropy) (rngVals stream : List Nat) (fuel : Nat) :
    Option (Option Err × MonotonicEntropy × List Nat × List Nat) :=
  match MERandom m rngVals stream fuel with
  | none => none
  | some (r, rand2, rv2, st2) =>
    let p := m.entropy.Add r
    some (if p.2 then some Err.MonotonicOverflow else none,
      ⟨m.ms, m.inc, p.1, rand2, m.hasRng⟩, rv2, st2)

/-- `MonotonicEntropy.MonotonicRead`: same tick with nonzero stored entropy
increments and then always writes the stored entropy into the output buffer
(also when `increment` just failed); otherwise ten fresh bytes are read into
the buffer and recorded as the new state.  The result tuple is
(error, new state, remaining oracle, remaining stream, output buffer). -/
def MonotonicRead (m : MonotonicEntropy) (ms : Nat) (rngVals stream : List Nat)
    (fuel : Nat) :
    Option (Option Err × MonotonicEntropy × List Nat × List Nat × List Nat) :=
  if !m.entropy.IsZero && m.ms == ms then
    match MEIncrement m rngVals stream fuel with
    | none => none
    | some (e, m2, rv2, st2) => some (e, m2, rv2, st2, m2.entropy.AppendTo)
  else
    match stream with
    | b0 :: b1 :: b2 :: b3 :: b4 :: b5 :: b6 :: b7 :: b8 :: b9 :: rest =>
      some (none,
        ⟨ms, m.inc, uint80.SetBytes [b0, b1, b2, b3, b4, b5, b6, b7, b8, b9],
          m.rand, m.hasRng⟩,
        rngVals, rest, [b0, b1, b2, b3, b4, b5, b6, b7, b8, b9])
    | _ => none

/-- An accepted candidate of the rejection loop is nonzero and below `inc`. -/
theorem loop_accept_bounds (inc byteLen msbitLen : Nat) :
    ∀ (fuel : Nat) (rand stream : List Nat) (c : Nat) (rand2 stream2 : List Nat),
      MERandomLoop inc byteLen msbitLen rand stream fuel = some (c, rand2, stream2) →
      1 ≤ c ∧ c < inc := by
  intro fuel
  induction fuel with
  | zero => intro rand stream c rand2 stream2 h; simp [MERandomLoop] at h
  | succ n ih =>
    intro rand stream c rand2 stream2 h
    rw [MERandomLoop] at h
    split at h
    · exact absurd h (by simp)
    · split at h
      · exact ih _ _ _ _ _ h
      · rename_i hacc
        obtain ⟨rfl, _, _⟩ : _ ∧ _ ∧ _ := by
          simpa using h
        omega

/-- Success of `random` yields a value in `[1, inc]` (given a well-formed
`Int63n` oracle) and passes the oracle well-formedness on. -/
theorem merandom_spec (m : MonotonicEntropy) (rngVals stream : List Nat)
    (fuel : Nat) (r : Nat) (rand2 rv2 st2 : List Nat)
    (hinc : 1 ≤ m.inc) (hrv : ∀ k ∈ rngVals, k < m.inc)
    (h : MERandom m rngVals stream fuel = some (r, rand2, rv2, st2)) :
    1 ≤ r ∧ r ≤ m.inc ∧ (∀ k ∈ rv2, k < m.inc) := by
  rw [MERandom.eq_def] at h
  split at h
  · obtain ⟨rfl, _, rfl, rfl⟩ : _ ∧ _ ∧ _ ∧ _ := by simpa using h
    exact ⟨le_refl 1, hinc, hrv⟩
  · split at h
    · match rngVals, h with
      | k :: rest, h =>
        obtain ⟨rfl, _, rfl, rfl⟩ : _ ∧ _ ∧ _ ∧ _ := by simpa using h
        have hk : k < m.inc := hrv k (by simp)
        exact ⟨by omega, by omega, fun q hq => hrv q (by simp [hq])⟩
    · revert h
      split
      · intro h; exact absurd h (by simp)
      · rename_i c rand3 stream3 hloop
        intro h
        obtain ⟨rfl, _, rfl, rfl⟩ : _ ∧ _ ∧ _ ∧ _ := by simpa using h
        have := loop_accept_bounds _ _ _ _ _ _ _ _ _ hloop
        exact ⟨by omega, by omega, hrv⟩

/-- Without the fast path the `random` result is at least 2: the accepted
candidate is nonzero and the code returns one more than it. -/
theorem merandom_byte_ge_two (m : MonotonicEntropy) (rngVals stream : List Nat)
    (fuel : Nat) (r : Nat) (rand2 rv2 st2 : List Nat)
    (hrng : m.hasRng = false) (hinc : 2 ≤ m.inc)
    (h : MERandom m rngVals stream fuel = some (r, rand2, rv2, st2)) :
    2 ≤ r := by
  rw [MERandom.eq_def] at h
  split at h
  · omega
  · rw [hrng] at h
    simp only [Bool.false_eq_true, if_false] at h
    revert h
    split
    · intro h; exact absurd h (by simp)
    · rename_i c rand3 stream3 hloop
      intro h
      obtain ⟨rfl, _, rfl, rfl⟩ : _ ∧ _ ∧ _ ∧ _ := by simpa using h
      have := loop_accept_bounds _ _ _ _ _ _ _ _ _ hloop
      omega

/-- `r` is a possible result of `random` on generator `m`, for some
well-formed `Int63n` oracle, byte stream and fuel. -/
def canYield (m : MonotonicEntropy) (r : Nat) : Prop :=
  ∃ rngVals stream fuel rand2 rv2 st2,
    (∀ k ∈ rngVals, k < m.inc) ∧
    MERandom m rngVals stream fuel = some (r, rand2, rv2, st2)

/-- C7: `Monotonic(e, 0)` stores `math.MaxUint32 = 2 ^ 32 - 1` as `inc`; every
possible increment lies in `[1, 2 ^ 32)` and `2 ^ 32 - 1` itself is attained,
so the exclusive upper bound of the per-call random increment is `2 ^ 32` —
with or without the fast-path capability. -/
theorem c7_default_increment_bound (b : Bool) :
    (Monotonic 0 b).inc = 2 ^ 32 - 1 ∧
      (∀ r, canYield (Monotonic 0 b) r → 1 ≤ r ∧ r < 2 ^ 32) ∧
      canYield (Monotonic 0 b) (2 ^ 32 - 1) := by
  refine ⟨rfl, ?_, ?_⟩
  · rintro r ⟨rv, st, fuel, rand2, rv2, st2, hrv, heq⟩
    have hinc : 1 ≤ (Monotonic 0 b).inc := by rw [show (Monotonic 0 b).inc = 2 ^ 32 - 1 from rfl]; omega
    obtain ⟨h1, h2, -⟩ := merandom_spec _ _ _ _ _ _ _ _ hinc hrv heq
    rw [show (Monotonic 0 b).inc = 2 ^ 32 - 1 from rfl] at h2
    omega
  · cases b with
    | true =>
      exact ⟨[4294967294], [], 1, [0, 0, 0, 0, 0, 0, 0, 0], [], [],
        by decide, rfl⟩
    | false =>
      exact ⟨[], [254, 255, 255, 255], 1, [254, 255, 255, 255, 0, 0, 0, 0],
        [], [], by decide, rfl⟩

/-- C7 (witness): instantiation at the fast-path flag `false`. -/
theorem c7_default_increment_bound_witness :
    (Monotonic 0 false).inc = 2 ^ 32 - 1 ∧
      (∀ r, canYield (Monotonic 0 false) r → 1 ≤ r ∧ r < 2 ^ 32) ∧
      canYield (Monotonic 0 false) (2 ^ 32 - 1) :=
  c7_default_increment_bound false

/-- A generator whose source has no `Int63n` capability, fresh at `inc`. -/
def mkByteGen (inc : Nat) : MonotonicEntropy :=
  ⟨0, inc, ⟨0, 0⟩, [0, 0, 0, 0, 0, 0, 0, 0], false⟩

/-- A generator whose source has the `Int63n` capability, fresh at `inc`. -/
def mkRngGen (inc : Nat) : MonotonicEntropy :=
  ⟨0, inc, ⟨0, 0⟩, [0, 0, 0, 0, 0, 0, 0, 0], true⟩

/-- The little-endian conversion of a masked two-byte buffer. -/
theorem leSwitch_two (a b : Nat) (rest : List Nat) :
    leSwitch 2 (a :: b :: rest) = a ||| (b <<< 8) := rfl

/-- The masked scratch buffer for `byteLen = 2`, `msbitLen = 2`: byte 0 —
the little-endian LOW byte of the candidate — is masked with 3. -/
theorem maskedBuf_two (rand : List Nat) (s0 s1 : Nat) (rest : List Nat) :
    maskedBuf 2 2 rand (s0 :: s1 :: rest) = (s0 &&& 3) :: s1 :: rand.drop 2 := rfl

/-- With `inc = 768` (`byteLen = 2`, `msbitLen = 2`) every accepted candidate
of the rejection loop has a low byte of at most 3: the mask hits the
little-endian least-significant buffer byte, not the most significant bits
of the candidate. -/
theorem loop768_lowbyte :
    ∀ (fuel : Nat) (rand stream : List Nat) (c : Nat) (rand2 stream2 : List Nat),
      MERandomLoop 768 2 2 rand stream fuel = some (c, rand2, stream2) →
      c % 256 ≤ 3 := by
  intro fuel
  induction fuel with
  | zero => intro rand stream c rand2 stream2 h; simp [MERandomLoop] at h
  | succ n ih =>
    intro rand stream c rand2 stream2 h
    rw [MERandomLoop] at h
    split at h
    · exact absurd h (by simp)
    · rename_i hlen
      rcases stream with _ | ⟨s0, _ | ⟨s1, rest⟩⟩
      · simp at hlen
      · simp at hlen
      · rw [maskedBuf_two, leSwitch_two] at h
        split at h
        · exact ih _ _ _ _ _ h
        · obtain ⟨rfl, -, -⟩ : _ ∧ _ ∧ _ := by simpa using h
          have ha : s0 &&& 3 ≤ 3 := Nat.and_le_right
          have hc : (s0 &&& 3) ||| (s1 <<< 8) = 2 ^ 8 * s1 + (s0 &&& 3) := by
            rw [Nat.lor_comm, Nat.shiftLeft_eq,
              show s1 * 2 ^ 8 = 2 ^ 8 * s1 from Nat.mul_comm s1 (2 ^ 8),
              orOfLt 8 s1 (by omega)]
          rw [hc]
          omega

/-- At `inc = 768` the byte path only returns one plus a candidate whose low
byte is at most 3. -/
theorem merandom_byte768 (rv st : List Nat) (fuel r : Nat)
    (rand2 rv2 st2 : List Nat)
    (h : MERandom (mkByteGen 768) rv st fuel = some (r, rand2, rv2, st2)) :
    ∃ c, r = 1 + c ∧ c % 256 ≤ 3 := by
  rw [MERandom.eq_def] at h
  simp only [mkByteGen] at h
  rw [if_neg (by omega)] at h
  simp only [Bool.false_eq_true, if_false] at h
  rw [show (bitsLen64 768 + 7) / 8 = 2 from by decide,
    show (if bitsLen64 768 % 8 = 0 then 8 else bitsLen64 768 % 8) = 2 from by decide]
    at h
  revert h
  split
  · intro h; exact absurd h (by simp)
  · rename_i c rand3 stream3 hloop
    intro h
    obtain ⟨rfl, -, -, -⟩ : _ ∧ _ ∧ _ ∧ _ := by simpa using h
    exact ⟨c, rfl, loop768_lowbyte fuel _ st c rand3 stream3 hloop⟩

/-- C8 (counterexample): the two draws are not semantically equivalent.  At
`inc = 2` the fast path can draw the increment 1 while the byte-sampling
loop never returns 1; and the divergence goes beyond the value 1: at
`inc = 768` the fast path can draw 6 while the loop cannot, because its mask
lands on the little-endian low byte of the candidate. -/
theorem c8_fast_path_differs :
    (canYield (mkRngGen 2) 1 ∧ ¬ canYield (mkByteGen 2) 1) ∧
      (canYield (mkRngGen 768) 6 ∧ ¬ canYield (mkByteGen 768) 6) := by
  refine ⟨⟨⟨[0], [], 1, [0, 0, 0, 0, 0, 0, 0, 0], [], [], by decide, rfl⟩, ?_⟩,
    ⟨[5], [], 1, [0, 0, 0, 0, 0, 0, 0, 0], [], [], by decide, rfl⟩, ?_⟩
  · rintro ⟨rv, st, fuel, rand2, rv2, st2, hrv, heq⟩
    have := merandom_byte_ge_two _ _ _ _ _ _ _ _ rfl (by decide) heq
    omega
  · rintro ⟨rv, st, fuel, rand2, rv2, st2, hrv, heq⟩
    obtain ⟨c, hc6, hcle⟩ := merandom_byte768 rv st fuel 6 rand2 rv2 st2 heq
    omega

/-- C8 (amended): the byte-sampling loop only draws values in `[2, inc]`
while the fast path draws from exactly `[1, inc]`; in particular only the
fast path can produce the increment 1, and (per the counterexample) the
loop is restricted even further by the mask on the little-endian low
buffer byte. -/
theorem c8_support_bounds (inc r : Nat) (h2 : 2 ≤ inc) :
    (canYield (mkByteGen inc) r → 2 ≤ r ∧ r ≤ inc) ∧
      (canYield (mkRngGen inc) r ↔ 1 ≤ r ∧ r ≤ inc) := by
  constructor
  · rintro ⟨rv, st, fuel, rand2, rv2, st2, hrv, heq⟩
    have hlow := merandom_byte_ge_two _ _ _ _ _ _ _ _ rfl h2 heq
    obtain ⟨-, hup, -⟩ :=
      merandom_spec _ _ _ _ _ _ _ _ (by simp only [mkByteGen]; omega) hrv heq
    exact ⟨hlow, hup⟩
  · constructor
    · rintro ⟨rv, st, fuel, rand2, rv2, st2, hrv, heq⟩
      obtain ⟨h1, hup, -⟩ :=
        merandom_spec _ _ _ _ _ _ _ _ (by simp only [mkRngGen]; omega) hrv heq
      exact ⟨h1, hup⟩
    · rintro ⟨h1, hup⟩
      refine ⟨[r - 1], [], 1, [0, 0, 0, 0, 0, 0, 0, 0], [], [], ?_, ?_⟩
      · intro k hk
        simp only [List.mem_singleton] at hk
        simp only [mkRngGen]
        omega
      · rw [MERandom.eq_def]
        simp only [mkRngGen]
        rw [if_neg (by omega), if_pos trivial]
        show some (1 + (r - 1), ([0, 0, 0, 0, 0, 0, 0, 0] : List Nat),
            ([] : List Nat), ([] : List Nat)) = _
        simp only [Option.some.injEq, Prod.mk.injEq, and_true, true_and]
        omega

/-- C8 (witness): instantiation at `inc = 2`, `r = 2`. -/
theorem c8_support_bounds_witness :
    (canYield (mkByteGen 2) 2 → 2 ≤ 2 ∧ 2 ≤ 2) ∧
      (canYield (mkRngGen 2) 2 ↔ 1 ≤ 2 ∧ 2 ≤ 2) :=
  c8_support_bounds 2 2 (by decide)

/-- `SetBytes` of ten byte values: normalized words holding the big-endian
value of the bytes. -/
theorem setBytes_spec (b0 b1 b2 b3 b4 b5 b6 b7 b8 b9 : Nat)
    (h0 : b0 < 256) (h1 : b1 < 256) (h2 : b2 < 256) (h3 : b3 < 256)
    (h4 : b4 < 256) (h5 : b5 < 256) (h6 : b6 < 256) (h7 : b7 < 256)
    (h8 : b8 < 256) (h9 : b9 < 256) :
    uint80.SetBytes [b0, b1, b2, b3, b4, b5, b6, b7, b8, b9] =
      ⟨b0 * 2 ^ 8 + b1,
       b2 * 2 ^ 56 + b3 * 2 ^ 48 + b4 * 2 ^ 40 + b5 * 2 ^ 32 + b6 * 2 ^ 24 +
         b7 * 2 ^ 16 + b8 * 2 ^ 8 + b9⟩ := by
  simp only [uint80.SetBytes]
  congr 1
  · rw [Nat.shiftLeft_eq, show b0 * 2 ^ 8 = 2 ^ 8 * b0 by ring,
      orOfLt 8 b0 (by omega)]
  · rw [Nat.shiftLeft_eq b2 56, Nat.shiftLeft_eq b3 48, Nat.shiftLeft_eq b4 40,
      Nat.shiftLeft_eq b5 32, Nat.shiftLeft_eq b6 24, Nat.shiftLeft_eq b7 16,
      Nat.shiftLeft_eq b8 8]
    rw [show b2 * 2 ^ 56 = 2 ^ 56 * b2 by ring, orOfLt 56 b2 (by omega)]
    rw [show 2 ^ 56 * b2 + b3 * 2 ^ 48 = 2 ^ 48 * (2 ^ 8 * b2 + b3) by ring,
      orOfLt 48 _ (by omega)]
    rw [show 2 ^ 48 * (2 ^ 8 * b2 + b3) + b4 * 2 ^ 40 =
        2 ^ 40 * (2 ^ 16 * b2 + 2 ^ 8 * b3 + b4) by ring,
      orOfLt 40 _ (by omega)]
    rw [show 2 ^ 40 * (2 ^ 16 * b2 + 2 ^ 8 * b3 + b4) + b5 * 2 ^ 32 =
        2 ^ 32 * (2 ^ 24 * b2 + 2 ^ 16 * b3 + 2 ^ 8 * b4 + b5) by ring,
      orOfLt 32 _ (by omega)]
    rw [show 2 ^ 32 * (2 ^ 24 * b2 + 2 ^ 16 * b3 + 2 ^ 8 * b4 + b5) + b6 * 2 ^ 24 =
        2 ^ 24 * (2 ^ 32 * b2 + 2 ^ 24 * b3 + 2 ^ 16 * b4 + 2 ^ 8 * b5 + b6) by ring,
      orOfLt 24 _ (by omega)]
    rw [show 2 ^ 24 * (2 ^ 32 * b2 + 2 ^ 24 * b3 + 2 ^ 16 * b4 + 2 ^ 8 * b5 + b6) +
          b7 * 2 ^ 16 =
        2 ^ 16 * (2 ^ 40 * b2 + 2 ^ 32 * b3 + 2 ^ 24 * b4 + 2 ^ 16 * b5 +
          2 ^ 8 * b6 + b7) by ring,
      orOfLt 16 _ (by omega)]
    rw [show 2 ^ 16 * (2 ^ 40 * b2 + 2 ^ 32 * b3 + 2 ^ 24 * b4 + 2 ^ 16 * b5 +
          2 ^ 8 * b6 + b7) + b8 * 2 ^ 8 =
        2 ^ 8 * (2 ^ 48 * b2 + 2 ^ 40 * b3 + 2 ^ 32 * b4 + 2 ^ 24 * b5 +
          2 ^ 16 * b6 + 2 ^ 8 * b7 + b8) by ring,
      orOfLt 8 _ (by omega)]

/-- `SetBytes` of ten byte values is normalized and holds their big-endian
numeric value. -/
theorem setBytes_val (b0 b1 b2 b3 b4 b5 b6 b7 b8 b9 : Nat)
    (h0 : b0 < 256) (h1 : b1 < 256) (h2 : b2 < 256) (h3 : b3 < 256)
    (h4 : b4 < 256) (h5 : b5 < 256) (h6 : b6 < 256) (h7 : b7 < 256)
    (h8 : b8 < 256) (h9 : b9 < 256) :
    (uint80.SetBytes [b0, b1, b2, b3, b4, b5, b6, b7, b8, b9]).Norm ∧
      (uint80.SetBytes [b0, b1, b2, b3, b4, b5, b6, b7, b8, b9]).val =
        byteVal [b0, b1, b2, b3, b4, b5, b6, b7, b8, b9] := by
  rw [setBytes_spec b0 b1 b2 b3 b4 b5 b6 b7 b8 b9 h0 h1 h2 h3 h4 h5 h6 h7 h8 h9]
  simp only [uint80.Norm, uint80.val, byteVal, List.foldl_cons, List.foldl_nil]
  refine ⟨⟨by omega, by omega⟩, by omega⟩

/-- The ten bytes of `AppendTo` hold the 80-bit value of a normalized
counter. -/
theorem appendTo_val (u : uint80) (hu : u.Norm) :
    byteVal u.AppendTo = u.val := by
  obtain ⟨hH, hL⟩ := hu
  simp only [uint80.AppendTo, uint80.val, byteVal, List.foldl_cons,
    List.foldl_nil, Nat.shiftRight_eq_div_pow]
  omega

/-- Shape of a same-tick `MonotonicRead`: a `random` draw, an `Add` into the
stored entropy (kept even on overflow), and the updated entropy written to
the output buffer. -/
theorem monoread_incr_case (m : MonotonicEntropy) (ms : Nat)
    (rv st : List Nat) (fuel : Nat) (e : Option Err) (m2 : MonotonicEntropy)
    (rv2 st2 out : List Nat)
    (hcond : (!m.entropy.IsZero && m.ms == ms) = true)
    (h : MonotonicRead m ms rv st fuel = some (e, m2, rv2, st2, out)) :
    ∃ r rand2, MERandom m rv st fuel = some (r, rand2, rv2, st2) ∧
      m2 = ⟨m.ms, m.inc, (m.entropy.Add r).1, rand2, m.hasRng⟩ ∧
      e = (if (m.entropy.Add r).2 then some Err.MonotonicOverflow else none) ∧
      out = (m.entropy.Add r).1.AppendTo := by
  rw [MonotonicRead.eq_def, if_pos hcond] at h
  rcases hMI : MEIncrement m rv st fuel with _ | ⟨e1, m3, rv3, st3⟩
  · rw [hMI] at h; exact Option.noConfusion h
  · rw [hMI] at h
    simp only [Option.some.injEq, Prod.mk.injEq] at h
    obtain ⟨he, hm2, hrv2, hst2, hout⟩ := h
    rw [MEIncrement.eq_def] at hMI
    rcases hR : MERandom m rv st fuel with _ | ⟨r, rand2, rv4, st4⟩
    · rw [hR] at hMI; exact Option.noConfusion hMI
    · rw [hR] at hMI
      simp only [Option.some.injEq, Prod.mk.injEq] at hMI
      obtain ⟨he1, hm3, hrv3, hst3⟩ := hMI
      subst he hrv2 hst2 hrv3 hst3 hm2 hm3
      exact ⟨r, rand2, rfl, rfl, he1.symm, hout.symm⟩

/-- Shape of a fresh-draw `MonotonicRead`: ten bytes are read from the
stream, become the new entropy state, and are the output; the tick is
recorded and no error is possible. -/
theorem monoread_fresh_case (m : MonotonicEntropy) (ms : Nat)
    (rv st : List Nat) (fuel : Nat) (e : Option Err) (m2 : MonotonicEntropy)
    (rv2 st2 out : List Nat)
    (hcond : (!m.entropy.IsZero && m.ms == ms) = false)
    (h : MonotonicRead m ms rv st fuel = some (e, m2, rv2, st2, out)) :
    e = none ∧ rv2 = rv ∧
      ∃ b0 b1 b2 b3 b4 b5 b6 b7 b8 b9,
        st = b0 :: b1 :: b2 :: b3 :: b4 :: b5 :: b6 :: b7 :: b8 :: b9 :: st2 ∧
        out = [b0, b1, b2, b3, b4, b5, b6, b7, b8, b9] ∧
        m2 = ⟨ms, m.inc, uint80.SetBytes [b0, b1, b2, b3, b4, b5, b6, b7, b8, b9],
          m.rand, m.hasRng⟩ := by
  rw [MonotonicRead.eq_def, hcond] at h
  simp only [Bool.false_eq_true, if_false] at h
  rcases st with _ | ⟨b0, st⟩
  · exact Option.noConfusion h
  rcases st with _ | ⟨b1, st⟩
  · exact Option.noConfusion h
  rcases st with _ | ⟨b2, st⟩
  · exact Option.noConfusion h
  rcases st with _ | ⟨b3, st⟩
  · exact Option.noConfusion h
  rcases st with _ | ⟨b4, st⟩
  · exact Option.noConfusion h
  rcases st with _ | ⟨b5, st⟩
  · exact Option.noConfusion h
  rcases st with _ | ⟨b6, st⟩
  · exact Option.noConfusion h
  rcases st with _ | ⟨b7, st⟩
  · exact Option.noConfusion h
  rcases st with _ | ⟨b8, st⟩
  · exact Option.noConfusion h
  rcases st with _ | ⟨b9, st⟩
  · exact Option.noConfusion h
  simp only [Option.some.injEq, Prod.mk.injEq] at h
  obtain ⟨he, hm2, hrv2, hst2, hout⟩ := h
  exact ⟨he.symm, hrv2.symm, b0, b1, b2, b3, b4, b5, b6, b7, b8, b9,
    by rw [hst2], hout.symm, hm2.symm⟩

/-- The rejection loop only consumes the stream: the leftover is part of the
original. -/
theorem loop_stream_sub (inc byteLen msbitLen : Nat) :
    ∀ (fuel : Nat) (rand stream : List Nat) (c : Nat) (rand2 stream2 : List Nat),
      MERandomLoop inc byteLen msbitLen rand stream fuel = some (c, rand2, stream2) →
      ∀ b ∈ stream2, b ∈ stream := by
  intro fuel
  induction fuel with
  | zero => intro rand stream c rand2 stream2 h; simp [MERandomLoop] at h
  | succ n ih =>
    intro rand stream c rand2 stream2 h
    rw [MERandomLoop] at h
    split at h
    · exact absurd h (by simp)
    · split at h
      · intro b hb
        exact List.drop_subset _ _ (ih _ _ _ _ _ h b hb)
      · obtain ⟨-, -, rfl⟩ : _ ∧ _ ∧ _ := by simpa using h
        intro b hb
        exact List.drop_subset _ _ hb

/-- `random` only consumes the stream. -/
theorem merandom_stream_sub (m : MonotonicEntropy) (rv st : List Nat)
    (fuel : Nat) (r : Nat) (rand2 rv2 st2 : List Nat)
    (h : MERandom m rv st fuel = some (r, rand2, rv2, st2)) :
    ∀ b ∈ st2, b ∈ st := by
  rw [MERandom.eq_def] at h
  split at h
  · obtain ⟨-, -, -, rfl⟩ : _ ∧ _ ∧ _ ∧ _ := by simpa using h
    exact fun b hb => hb
  · split at h
    · match rv, h with
      | k :: rest, h =>
        obtain ⟨-, -, -, rfl⟩ : _ ∧ _ ∧ _ ∧ _ := by simpa using h
        exact fun b hb => hb
    · revert h
      split
      · intro h; exact absurd h (by simp)
      · rename_i c rand3 stream3 hloop
        intro h
        obtain ⟨-, -, -, rfl⟩ : _ ∧ _ ∧ _ ∧ _ := by simpa using h
        exact loop_stream_sub _ _ _ _ _ _ _ _ _ hloop

/-- Everything a successful `MonotonicRead` guarantees: the new state is
normalized, records the requested tick, preserves the configuration, the
output buffer holds exactly the new entropy value, and — when the call was a
same-tick increment — the value grew by some `r ∈ [1, inc]`. -/
theorem monoread_success_facts (m : MonotonicEntropy) (ms : Nat)
    (rv st : List Nat) (fuel : Nat) (m2 : MonotonicEntropy)
    (rv2 st2 out : List Nat)
    (hnorm : m.entropy.Norm) (hinc1 : 1 ≤ m.inc) (hinc2 : m.inc < 2 ^ 64)
    (hrv : ∀ k ∈ rv, k < m.inc) (hst : ∀ b ∈ st, b < 256)
    (h : MonotonicRead m ms rv st fuel = some (none, m2, rv2, st2, out)) :
    m2.entropy.Norm ∧ m2.ms = ms ∧ m2.inc = m.inc ∧ m2.hasRng = m.hasRng ∧
      (∀ k ∈ rv2, k < m.inc) ∧ (∀ b ∈ st2, b < 256) ∧
      byteVal out = m2.entropy.val ∧
      ((!m.entropy.IsZero && m.ms == ms) = true →
        ∃ r, 1 ≤ r ∧ r ≤ m.inc ∧ m2.entropy.val = m.entropy.val + r) := by
  cases hcond : (!m.entropy.IsZero && m.ms == ms) with
  | false =>
    obtain ⟨-, rfl, b0, b1, b2, b3, b4, b5, b6, b7, b8, b9, hstEq, hout, hm2⟩ :=
      monoread_fresh_case m ms rv st fuel none m2 rv2 st2 out hcond h
    subst hm2 hstEq hout
    have hb0 : b0 < 256 := hst b0 (by simp)
    have hb1 : b1 < 256 := hst b1 (by simp)
    have hb2 : b2 < 256 := hst b2 (by simp)
    have hb3 : b3 < 256 := hst b3 (by simp)
    have hb4 : b4 < 256 := hst b4 (by simp)
    have hb5 : b5 < 256 := hst b5 (by simp)
    have hb6 : b6 < 256 := hst b6 (by simp)
    have hb7 : b7 < 256 := hst b7 (by simp)
    have hb8 : b8 < 256 := hst b8 (by simp)
    have hb9 : b9 < 256 := hst b9 (by simp)
    obtain ⟨hsbNorm, hsbVal⟩ :=
      setBytes_val b0 b1 b2 b3 b4 b5 b6 b7 b8 b9 hb0 hb1 hb2 hb3 hb4 hb5 hb6
        hb7 hb8 hb9
    refine ⟨hsbNorm, rfl, rfl, rfl, hrv, ?_, hsbVal.symm, ?_⟩
    · intro b hb
      exact hst b (by simp [hb])
    · intro hc
      exact absurd hc (by simp)
  | true =>
    obtain ⟨r, rand2, hR, hm2, he, hout⟩ :=
      monoread_incr_case m ms rv st fuel none m2 rv2 st2 out hcond h
    rcases hov : (m.entropy.Add r).2 with _ | _
    case true =>
      rw [hov] at he
      exact absurd he (by simp)
    obtain ⟨hr1, hr2, hrvwf⟩ := merandom_spec m rv st fuel r rand2 rv2 st2 hinc1 hrv hR
    obtain ⟨hval, hnorm2, hiff⟩ := uint80_add_spec m.entropy r hnorm (by omega)
    have hlt : m.entropy.val + r < 2 ^ 80 := by
      rcases Nat.lt_or_ge (m.entropy.val + r) (2 ^ 80) with hh | hh
      · exact hh
      · rw [hiff.mpr hh] at hov; exact absurd hov (by simp)
    have hveq : (m.entropy.Add r).1.val = m.entropy.val + r := by
      rw [hval, Nat.mod_eq_of_lt hlt]
    have hmsEq : m.ms = ms := by
      have := hcond
      simp only [Bool.and_eq_true, beq_iff_eq] at this
      exact this.2
    subst hm2
    refine ⟨hnorm2, hmsEq, rfl, rfl, hrvwf, ?_, ?_, ?_⟩
    · intro b hb
      exact hst b (merandom_stream_sub m rv st fuel r rand2 rv2 st2 hR b hb)
    · rw [hout]
      exact appendTo_val _ hnorm2
    · intro hc
      exact ⟨r, hr1, hr2, hveq⟩

/-- C1 (counterexample): a fresh draw of ten zero bytes writes the all-zero
entropy, which doubles as the generator's empty-state sentinel, so the next
same-tick call redraws instead of incrementing — two consecutive successful
same-tick reads then write the very same (zero) entropy value. -/
theorem c1_zero_entropy_counterexample :
    MonotonicRead (Monotonic 1 false) 5 [] (List.replicate 20 0) 1 =
        some (none, ⟨5, 1, ⟨0, 0⟩, [0, 0, 0, 0, 0, 0, 0, 0], false⟩, [],
          List.replicate 10 0, List.replicate 10 0) ∧
      MonotonicRead ⟨5, 1, ⟨0, 0⟩, [0, 0, 0, 0, 0, 0, 0, 0], false⟩ 5 []
          (List.replicate 10 0) 1 =
        some (none, ⟨5, 1, ⟨0, 0⟩, [0, 0, 0, 0, 0, 0, 0, 0], false⟩, [], [],
          List.replicate 10 0) :=
  ⟨by decide, by decide⟩

/-- C1 (amended): two consecutive successful same-tick `MonotonicRead` calls
whose first call writes a nonzero entropy value give a second value that
strictly exceeds the first by some `r` with `1 ≤ r ≤ inc` (so below the
exclusive increment bound `inc + 1`); hence successful same-tick sequences
with nonzero values are strictly increasing with no duplicates. -/
theorem c1_same_tick_strict_increase (m0 : MonotonicEntropy) (ms : Nat)
    (rv st : List Nat) (f1 f2 : Nat) (m1 m2 : MonotonicEntropy)
    (rv1 st1 rv2 st2 out1 out2 : List Nat)
    (hnorm : m0.entropy.Norm) (hinc1 : 1 ≤ m0.inc) (hinc2 : m0.inc < 2 ^ 64)
    (hrv : ∀ k ∈ rv, k < m0.inc) (hst : ∀ b ∈ st, b < 256)
    (h1 : MonotonicRead m0 ms rv st f1 = some (none, m1, rv1, st1, out1))
    (hnz : m1.entropy.IsZero = false)
    (h2 : MonotonicRead m1 ms rv1 st1 f2 = some (none, m2, rv2, st2, out2)) :
    byteVal out1 = m1.entropy.val ∧ byteVal out2 = m2.entropy.val ∧
      ∃ r, 1 ≤ r ∧ r ≤ m0.inc ∧ m2.entropy.val = m1.entropy.val + r := by
  obtain ⟨hN1, hms1, hinc1e, -, hrv1w, hst1w, hout1, -⟩ :=
    monoread_success_facts m0 ms rv st f1 m1 rv1 st1 out1 hnorm hinc1 hinc2
      hrv hst h1
  have hrv1w2 : ∀ k ∈ rv1, k < m1.inc := by rw [hinc1e]; exact hrv1w
  obtain ⟨-, -, hinc2e, -, -, -, hout2, hgrow⟩ :=
    monoread_success_facts m1 ms rv1 st1 f2 m2 rv2 st2 out2 hN1
      (by omega) (by omega) hrv1w2 hst1w h2
  obtain ⟨r, hr1, hr2, hr3⟩ := hgrow (by simp [hnz, hms1])
  exact ⟨hout1, hout2, r, hr1, by omega, hr3⟩

/-- C1 (witness): with `inc = 1` a fresh draw writing value 1 followed by a
same-tick increment writing value 2. -/
theorem c1_same_tick_strict_increase_witness :
    byteVal [0, 0, 0, 0, 0, 0, 0, 0, 0, 1] =
        (uint80.SetBytes [0, 0, 0, 0, 0, 0, 0, 0, 0, 1]).val ∧
      byteVal (uint80.AppendTo ⟨0, 2⟩) = (uint80.mk 0 2).val ∧
      ∃ r, 1 ≤ r ∧ r ≤ (Monotonic 1 false).inc ∧
        (uint80.mk 0 2).val = (uint80.SetBytes [0, 0, 0, 0, 0, 0, 0, 0, 0, 1]).val + r := by
  have := c1_same_tick_strict_increase (Monotonic 1 false) 5 []
    [0, 0, 0, 0, 0, 0, 0, 0, 0, 1] 1 1
    ⟨5, 1, uint80.SetBytes [0, 0, 0, 0, 0, 0, 0, 0, 0, 1], [0, 0, 0, 0, 0, 0, 0, 0], false⟩
    ⟨5, 1, ⟨0, 2⟩, [0, 0, 0, 0, 0, 0, 0, 0], false⟩
    [] [] [] [] [0, 0, 0, 0, 0, 0, 0, 0, 0, 1] (uint80.AppendTo ⟨0, 2⟩)
    (by constructor <;> decide) (by decide) (by decide)
    (by intro k hk; simp at hk) (by intro b hb; simp at hb; omega)
    (by decide) (by decide) (by decide)
  exact this

/-- C2 (counterexample): a same-tick call on the all-ones entropy returns
`ErrMonotonicOverflow` but replaces the stored entropy with the wrapped
value 0 and writes those ten zero bytes into the output buffer — the state
is not left unchanged. -/
theorem c2_overflow_changes_state :
    MonotonicRead ⟨5, 1, ⟨65535, 18446744073709551615⟩, [0, 0, 0, 0, 0, 0, 0, 0], false⟩
        5 [] [] 1 =
      some (some Err.MonotonicOverflow,
        ⟨5, 1, ⟨0, 0⟩, [0, 0, 0, 0, 0, 0, 0, 0], false⟩, [], [],
        [0, 0, 0, 0, 0, 0, 0, 0, 0, 0]) ∧
      (uint80.mk 0 0) ≠ ⟨65535, 18446744073709551615⟩ :=
  ⟨by decide, by decide⟩

/-- C2 (amended): when a same-tick `MonotonicRead` returns an error at all,
the error is `ErrMonotonicOverflow`, the stored entropy has wrapped to
`old + r - 2 ^ 80` for the drawn increment `r ∈ [1, inc]`, and that wrapped
value — not the untouched old state — is what is written into the output
buffer alongside the non-nil error. -/
theorem c2_overflow_wraps_state (m : MonotonicEntropy) (ms : Nat)
    (rv st : List Nat) (fuel : Nat) (e : Err) (m2 : MonotonicEntropy)
    (rv2 st2 out : List Nat)
    (hnorm : m.entropy.Norm) (hinc1 : 1 ≤ m.inc) (hinc2 : m.inc < 2 ^ 64)
    (hrv : ∀ k ∈ rv, k < m.inc)
    (h : MonotonicRead m ms rv st fuel = some (some e, m2, rv2, st2, out)) :
    e = Err.MonotonicOverflow ∧ m2.ms = m.ms ∧ m2.inc = m.inc ∧
      ∃ r, 1 ≤ r ∧ r ≤ m.inc ∧
        m2.entropy.val + 2 ^ 80 = m.entropy.val + r ∧
        out = m2.entropy.AppendTo ∧ byteVal out = m2.entropy.val := by
  cases hcond : (!m.entropy.IsZero && m.ms == ms) with
  | false =>
    obtain ⟨hnone, -, -⟩ :=
      monoread_fresh_case m ms rv st fuel (some e) m2 rv2 st2 out hcond h
    exact Option.noConfusion hnone
  | true =>
    obtain ⟨r, rand2, hR, hm2, he, hout⟩ :=
      monoread_incr_case m ms rv st fuel (some e) m2 rv2 st2 out hcond h
    rcases hov : (m.entropy.Add r).2 with _ | _
    case false =>
      rw [hov] at he
      exact absurd he (by simp)
    rw [hov] at he
    simp only [if_pos] at he
    obtain rfl : e = Err.MonotonicOverflow := by
      simpa using he
    obtain ⟨hr1, hr2, -⟩ := merandom_spec m rv st fuel r rand2 rv2 st2 hinc1 hrv hR
    obtain ⟨hval, hnorm2, hiff⟩ := uint80_add_spec m.entropy r hnorm (by omega)
    have hge : 2 ^ 80 ≤ m.entropy.val + r := hiff.mp hov
    have hsmall : m.entropy.val < 2 ^ 80 := by
      obtain ⟨hH, hL⟩ := hnorm
      simp only [uint80.val]
      omega
    have hwrap : (m.entropy.Add r).1.val + 2 ^ 80 = m.entropy.val + r := by
      rw [hval]
      omega
    subst hm2
    refine ⟨rfl, rfl, rfl, r, hr1, hr2, hwrap, hout, ?_⟩
    rw [hout]
    exact appendTo_val _ hnorm2

/-- C2 (witness): the counterexample state, run through the amended theorem. -/
theorem c2_overflow_wraps_state_witness :
    Err.MonotonicOverflow = Err.MonotonicOverflow ∧
      (uint80.mk 0 0 : uint80).Hi = (uint80.mk 0 0 : uint80).Hi ∧ (1 : Nat) = 1 ∧
      ∃ r, 1 ≤ r ∧ r ≤ 1 ∧
        (uint80.mk 0 0).val + 2 ^ 80 =
          (uint80.mk 65535 18446744073709551615).val + r ∧
        ([0, 0, 0, 0, 0, 0, 0, 0, 0, 0] : List Nat) = (uint80.mk 0 0).AppendTo ∧
        byteVal [0, 0, 0, 0, 0, 0, 0, 0, 0, 0] = (uint80.mk 0 0).val := by
  have := c2_overflow_wraps_state
    ⟨5, 1, ⟨65535, 18446744073709551615⟩, [0, 0, 0, 0, 0, 0, 0, 0], false⟩ 5 [] [] 1
    Err.MonotonicOverflow
    ⟨5, 1, ⟨0, 0⟩, [0, 0, 0, 0, 0, 0, 0, 0], false⟩ [] []
    [0, 0, 0, 0, 0, 0, 0, 0, 0, 0]
    (by constructor <;> decide) (by decide) (by decide)
    (by intro k hk; simp at hk) (by decide)
  exact ⟨this.1 ▸ rfl, rfl, rfl, this.2.2.2⟩


/-- One step of `bytes.Compare` on two nonempty buffers. -/
theorem compare_cons (a b : Nat) (as bs : List Nat) :
    Compare (a :: as) (b :: bs) =
      if a < b then -1 else if b < a then 1 else Compare as bs := rfl

/-- `maxTime` is `2 ^ 48 - 1`. -/
theorem maxTime_eq : maxTime = 2 ^ 48 - 1 := by decide

/-- C4: for timestamps `t1 < t2` within the 48-bit range, the identifier
built from `t1` compares strictly below the identifier built from `t2`,
whatever entropy bytes fill the two tails. -/
theorem c4_timestamp_ordering (t1 t2 : Nat) (e1 e2 : List Nat)
    (h12 : t1 < t2) (h2max : t2 ≤ 2 ^ 48 - 1) :
    New t1 e1 = .ok (tsBytes t1 ++ e1) ∧ New t2 e2 = .ok (tsBytes t2 ++ e2) ∧
      Compare (tsBytes t1 ++ e1) (tsBytes t2 ++ e2) = -1 := by
  have hmax : maxTime = 2 ^ 48 - 1 := maxTime_eq
  refine ⟨?_, ?_, ?_⟩
  · rw [New, if_neg (by omega)]
  · rw [New, if_neg (by omega)]
  · rw [tsBytes, tsBytes, List.cons_append, List.cons_append, List.cons_append,
      List.cons_append, List.cons_append, List.cons_append, List.cons_append,
      List.cons_append, List.cons_append, List.cons_append, List.cons_append,
      List.cons_append, List.nil_append, List.nil_append]
    rw [compare_cons, compare_cons, compare_cons, compare_cons, compare_cons,
      compare_cons]
    rcases Nat.lt_trichotomy ((t1 >>> 40) % 256) ((t2 >>> 40) % 256) with h0 | h0 | h0
    · rw [if_pos h0]
    · rw [if_neg (by omega), if_neg (by omega)]
      rcases Nat.lt_trichotomy ((t1 >>> 32) % 256) ((t2 >>> 32) % 256) with h1 | h1 | h1
      · rw [if_pos h1]
      · rw [if_neg (by omega), if_neg (by omega)]
        rcases Nat.lt_trichotomy ((t1 >>> 24) % 256) ((t2 >>> 24) % 256) with h2 | h2 | h2
        · rw [if_pos h2]
        · rw [if_neg (by omega), if_neg (by omega)]
          rcases Nat.lt_trichotomy ((t1 >>> 16) % 256) ((t2 >>> 16) % 256) with h3 | h3 | h3
          · rw [if_pos h3]
          · rw [if_neg (by omega), if_neg (by omega)]
            rcases Nat.lt_trichotomy ((t1 >>> 8) % 256) ((t2 >>> 8) % 256) with h4 | h4 | h4
            · rw [if_pos h4]
            · rw [if_neg (by omega), if_neg (by omega)]
              rcases Nat.lt_trichotomy (t1 % 256) (t2 % 256) with h5 | h5 | h5
              · rw [if_pos h5]
              · rw [if_neg (by omega), if_neg (by omega)]
                exfalso
                omega
              · exfalso
                omega
            · exfalso
              omega
          · exfalso
            omega
        · exfalso
          omega
      · exfalso
        omega
    · exfalso
      omega

/-- C4 (witness): timestamps 0 and 1 with zero entropy. -/
theorem c4_timestamp_ordering_witness :
    New 0 (List.replicate 10 0) = .ok (tsBytes 0 ++ List.replicate 10 0) ∧
      New 1 (List.replicate 10 0) = .ok (tsBytes 1 ++ List.replicate 10 0) ∧
      Compare (tsBytes 0 ++ List.replicate 10 0)
        (tsBytes 1 ++ List.replicate 10 0) = -1 :=
  c4_timestamp_ordering 0 1 (List.replicate 10 0) (List.replicate 10 0)
    (by decide) (by decide)

